import Mathlib

/-!
Verification of the bank-statement extraction pipeline of the
`financ-advisor-ai` repository, shallowly embedded from
`backend/advanced_statement_parser.py`, `backend/enhanced_pdf_parser.py` and
`backend/gemini_pdf_parser.py`.

Modelling conventions:
* Python `datetime` values (date part only; the parsers never set a time of
  day) are the `Date` structure below.
* Python `float` amounts are modelled as exact decimals (`DecAmt` below,
  a mantissa over a power of ten).  All amount strings handled by this code
  are plain decimal strings, for which `float` parsing is exact up to binary
  rounding that none of the verified properties depend on; the rational value
  of an amount is exposed as `DecAmt.val` for the stated properties.
* I/O collaborators (pdfplumber, camelot, PyMuPDF+tesseract OCR, pandas
  readers, the Gemini network call) are passed in as explicit inputs: a
  parser that reads pages receives the list of decoded pages, a call that can
  raise receives an `Except` value.
* Python exceptions are `Except` errors; `try/except` blocks are `match`es on
  them, mirroring exactly which frames catch.
-/

set_option maxRecDepth 65536

set_option maxHeartbeats 2000000

deriving instance DecidableEq for Except

namespace FinAdvisor

/-! ### Calendar dates -/

/-- A calendar date, the date part of a Python `datetime`. -/
structure Date where
  year : Nat
  month : Nat
  day : Nat
deriving DecidableEq, Repr

/-- Gregorian leap-year test, as `calendar.isleap` / `datetime` use it. -/
def isLeapYear (y : Nat) : Bool :=
  (y % 4 == 0 && y % 100 != 0) || y % 400 == 0

/-- Number of days in a month, as validated by the `datetime` constructor. -/
def daysInMonth (y m : Nat) : Nat :=
  if m = 2 then (if isLeapYear y then 29 else 28)
  else if m = 4 ∨ m = 6 ∨ m = 9 ∨ m = 11 then 30
  else 31

/-- The range checks the `datetime` constructor performs (`MINYEAR = 1`,
`MAXYEAR = 9999`); out-of-range components raise `ValueError`, which every
caller in the sources treats as a failed parse. -/
def mkValidDate (y m d : Nat) : Option Date :=
  if 1 ≤ y ∧ y ≤ 9999 ∧ 1 ≤ m ∧ m ≤ 12 ∧ 1 ≤ d ∧ d ≤ daysInMonth y m then
    some ⟨y, m, d⟩
  else none

/-- The property `mkValidDate` checks. -/
def ValidDate (d : Date) : Prop :=
  1 ≤ d.year ∧ d.year ≤ 9999 ∧ 1 ≤ d.month ∧ d.month ≤ 12 ∧
    1 ≤ d.day ∧ d.day ≤ daysInMonth d.year d.month

/-- Comparison of Python `datetime` values (times here are all midnight):
lexicographic on (year, month, day). -/
def Date.le (a b : Date) : Prop :=
  a.year < b.year ∨ (a.year = b.year ∧
    (a.month < b.month ∨ (a.month = b.month ∧ a.day ≤ b.day)))

instance (a b : Date) : Decidable (Date.le a b) := by
  unfold Date.le; infer_instance

/-! ### Python string helpers -/

/-- Python `\s` / `str.strip` whitespace (ASCII part). -/
def pySpace (c : Char) : Bool :=
  c = ' ' ∨ c = '\t' ∨ c = '\n' ∨ c = '\r' ∨ c = '\x0b' ∨ c = '\x0c'

/-- `str.strip()` with no argument. -/
def pyStrip (s : String) : String :=
  ⟨((s.data.dropWhile pySpace).reverse.dropWhile pySpace).reverse⟩

/-- `str.lower()` (ASCII). -/
def pyLower (s : String) : String := ⟨s.data.map Char.toLower⟩

/-- `str.upper()` (ASCII). -/
def pyUpper (s : String) : String := ⟨s.data.map Char.toUpper⟩

/-- Python slicing `s[:n]`. -/
def pyTake (s : String) (n : Nat) : String := ⟨s.data.take n⟩

/-- Substring test on character lists: Python's `needle in hay`. -/
def subList (needle : List Char) : List Char → Bool
  | [] => needle.isEmpty
  | c :: rest => needle.isPrefixOf (c :: rest) || subList needle rest

/-- Python's `needle in hay` on strings. -/
def strContains (hay needle : String) : Bool := subList needle.data hay.data

/-- Remove every occurrence of the given characters:
chained `str.replace(c, '')` calls. -/
def removeChars (s : String) (cs : List Char) : String :=
  ⟨s.data.filter (fun c => ¬ cs.contains c)⟩

/-- Split at every occurrence of a character, keeping empty segments:
Python `s.split('\n')`. -/
def splitOnChar (sep : Char) (cs : List Char) : List (List Char) :=
  let p := cs.foldr
    (fun c acc => if c = sep then ([], acc.1 :: acc.2) else (c :: acc.1, acc.2))
    ([], [])
  p.1 :: p.2

/-- `s.split('\n')`. -/
def splitLines (s : String) : List String :=
  (splitOnChar '\n' s.data).map (⟨·⟩)

/-- Python `s.split()` with no argument: maximal nonempty runs of
non-whitespace. -/
def pyWords (cs : List Char) : List (List Char) :=
  let p := cs.foldr
    (fun c acc =>
      if pySpace c then ([], if acc.1.isEmpty then acc.2 else acc.1 :: acc.2)
      else (c :: acc.1, acc.2))
    ([], [])
  if p.1.isEmpty then p.2 else p.1 :: p.2

def joinWords : List (List Char) → List Char
  | [] => []
  | [w] => w
  | w :: rest => w ++ ' ' :: joinWords rest

/-- `' '.join(l)`. -/
def joinSpace (l : List String) : String := ⟨joinWords (l.map String.data)⟩

/-- `' '.join(s.split())`: collapse whitespace runs to single spaces and trim. -/
def collapseWs (s : String) : String :=
  ⟨joinWords (pyWords s.data)⟩

/-- Numeric value of a digit string. -/
def digitsToNat (cs : List Char) : Nat :=
  cs.foldl (fun a c => a * 10 + (c.toNat - '0'.toNat)) 0

/-! ### Amounts

A parsed amount `m / 10 ^ e`, kept unnormalized so that every operation the
parsers perform on amounts (construction from decimal literals, sign,
comparison with zero, ordering for `max`) is plain integer arithmetic.  The
decimal strings these parsers accept denote such values exactly; `val` maps
an amount to the rational it denotes, and the comparisons below agree with
the comparisons Python performs on the parsed values.  Amounts produced by
identical code paths have identical representations, so structural equality
of records is meaningful. -/

structure DecAmt where
  m : Int
  e : Nat
deriving DecidableEq, Repr

/-- The rational value an amount denotes. -/
def DecAmt.val (a : DecAmt) : ℚ := (a.m : ℚ) / (10 : ℚ) ^ a.e

/-- Value comparison `a ≤ b` by cross-multiplication. -/
def DecAmt.le (a b : DecAmt) : Prop :=
  a.m * (10 : Int) ^ b.e ≤ b.m * (10 : Int) ^ a.e

/-- Value comparison `a < b` by cross-multiplication. -/
def DecAmt.lt (a b : DecAmt) : Prop :=
  a.m * (10 : Int) ^ b.e < b.m * (10 : Int) ^ a.e

instance (a b : DecAmt) : Decidable (DecAmt.le a b) := by
  unfold DecAmt.le; infer_instance

instance (a b : DecAmt) : Decidable (DecAmt.lt a b) := by
  unfold DecAmt.lt; infer_instance

/-- `x > 0` on a parsed amount. -/
def DecAmt.posB (a : DecAmt) : Bool := 0 < a.m

/-- Python truthiness of a parsed amount (`0.0` is falsy). -/
def DecAmt.truthy (a : DecAmt) : Bool := a.m ≠ 0

/-- Python `max` over a nonempty list: keep the current value unless the
candidate is strictly greater. -/
def DecAmt.listMax (a : DecAmt) (rest : List DecAmt) : DecAmt :=
  rest.foldl (fun acc x => if DecAmt.lt acc x then x else acc) a

/-- `float(s)` on a cleaned candidate string, as used after the sources'
`s.replace('.', '').isdigit()` guards: succeeds exactly on nonempty strings of
digits with at most one `'.'` (and at least one digit), raising `ValueError`
otherwise. Exponent/infinity forms never pass the guards in the sources and
are not modelled. -/
def floatOfCleaned (s : String) : Option DecAmt :=
  let cs := s.data
  let digits := cs.filter (· ≠ '.')
  if digits ≠ [] ∧ digits.all Char.isDigit ∧ (cs.filter (· = '.')).length ≤ 1 then
    let ip := cs.takeWhile (· ≠ '.')
    let fp := (cs.dropWhile (· ≠ '.')).drop 1
    some ⟨(digitsToNat (ip ++ fp) : Int), fp.length⟩
  else none

/-- The value of a Python `float`: a finite value carried as a decimal, an
infinity, or `nan`.  `float('nan')` and `float('inf')` are accepted inputs
and `gemini_pdf_parser.py` compares the result against `0`, so the special
values must be represented. -/
inductive PFloat where
  | fin (a : DecAmt)
  | inf (neg : Bool)
  | nan
deriving DecidableEq, Repr

/-- `x <= 0` on a Python float: false for `nan` (every comparison involving a
nan is false) and for `+inf`. -/
def PFloat.leZero : PFloat → Bool
  | .fin a => decide (a.m ≤ 0)
  | .inf neg => neg
  | .nan => false

/-- No two adjacent underscores. -/
def noDoubleUnderscore : List Char → Bool
  | '_' :: '_' :: _ => false
  | _ :: rest => noDoubleUnderscore rest
  | [] => true

/-- A CPython `digitpart`: one or more digits, with single underscores only
strictly between digits (`digit (["_"] digit)*`). -/
def isDigitPart (cs : List Char) : Bool :=
  (match cs.head? with | some c => c.isDigit | none => false) &&
  (match cs.getLast? with | some c => c.isDigit | none => false) &&
  cs.all (fun c => c.isDigit || c = '_') &&
  noDoubleUnderscore cs

/-- The number a `digitpart` denotes, underscores dropped. -/
def digitPartVal (cs : List Char) : Nat := digitsToNat (cs.filter (· ≠ '_'))

/-- The exact decimal a parsed float literal denotes: sign, integer digits,
fraction digits, exponent sign and exponent digits. -/
def mkPyDec (neg : Bool) (ip fp : List Char) (eneg : Bool) (eds : List Char) :
    DecAmt :=
  let mAbs : Int := (digitsToNat ((ip ++ fp).filter (· ≠ '_')) : Int)
  let m : Int := if neg then -mAbs else mAbs
  let fracLen : Int := ((fp.filter (· ≠ '_')).length : Int)
  let ev : Int :=
    if eneg then -(digitPartVal eds : Int) else (digitPartVal eds : Int)
  let net : Int := ev - fracLen
  if 0 ≤ net then ⟨m * 10 ^ net.toNat, 0⟩ else ⟨m, (-net).toNat⟩

/-- Conversion of the exact decimal to the Python float it becomes: a
magnitude at or beyond the largest double plus half an ulp rounds to an
infinity, and a magnitude at or below half the smallest subnormal rounds to
a zero; in between, the decimal stands for the nearest double — the two
agree in sign and zeroness, which is all the sources compare or branch
on. -/
def finOfDec (a : DecAmt) : PFloat :=
  if (2 ^ 1024 - 2 ^ 970) * 10 ^ a.e ≤ a.m.natAbs then .inf (decide (a.m < 0))
  else if a.m.natAbs * 2 ^ 1075 ≤ 10 ^ a.e then .fin ⟨0, 0⟩
  else .fin a

/-- `float(s)` as CPython accepts it on ASCII text: optional surrounding
whitespace, an optional sign, then `inf`/`infinity`/`nan` case-insensitively
or a decimal literal — optional integer digits, optional fraction, optional
exponent, with single underscores only between digits; anything else raises
`ValueError` (`none` here).  CPython additionally strips a few Unicode space
characters and maps Unicode decimal digits; none arise in the sources. -/
def pyFloat (s : String) : Option PFloat :=
  let t := (pyStrip s).data
  let sgn : Bool × List Char :=
    match t with
    | '-' :: rest => (true, rest)
    | '+' :: rest => (false, rest)
    | _ => (false, t)
  let neg := sgn.1
  let body := sgn.2
  let low := body.map Char.toLower
  if low = "inf".data ∨ low = "infinity".data then some (.inf neg)
  else if low = "nan".data then some .nan
  else
    let mant := body.takeWhile (fun c => c ≠ 'e' ∧ c ≠ 'E')
    let expPart := body.dropWhile (fun c => c ≠ 'e' ∧ c ≠ 'E')
    let ip := mant.takeWhile (· ≠ '.')
    let dotPart := mant.dropWhile (· ≠ '.')
    let fp := dotPart.drop 1
    let mantOk : Bool :=
      if dotPart.isEmpty then isDigitPart ip
      else ((ip.isEmpty || isDigitPart ip) && (fp.isEmpty || isDigitPart fp))
        && !(ip.isEmpty && fp.isEmpty)
    let expTok : Option (Bool × List Char) :=
      match expPart with
      | [] => some (false, [])
      | _ :: '-' :: r => if isDigitPart r then some (true, r) else none
      | _ :: '+' :: r => if isDigitPart r then some (false, r) else none
      | _ :: r => if isDigitPart r then some (false, r) else none
    match expTok with
    | none => none
    | some (eneg, eds) =>
      if mantOk then some (finOfDec (mkPyDec neg ip fp eneg eds)) else none

/-! ### `datetime.strptime`, for the format strings the sources use

CPython compiles each directive to a regular expression: `%d` and `%m` accept
one or two digits (value-checked), `%Y` exactly four digits, `%y` exactly two
(mapped to 1969–2068), `%b`/`%B` a month name case-insensitively, and literal
whitespace one or more whitespace characters.  The whole input must be
consumed, and the `datetime` constructor then validates the components.
Since in every format used here numeric directives are separated by
non-digit literals, regex backtracking never splits a digit run, so each
directive consumes a maximal digit run of the allowed width. -/

inductive FmtTok where
  | day | mon | year4 | year2 | monAbbr | monFull | ws | lit (c : Char)

def monthAbbrs : List String :=
  ["jan", "feb", "mar", "apr", "may", "jun",
   "jul", "aug", "sep", "oct", "nov", "dec"]

def monthFulls : List String :=
  ["january", "february", "march", "april", "may", "june", "july",
   "august", "september", "october", "november", "december"]

/-- Index (1-based) of the month whose lowercase name starts the input. -/
def matchMonthName (names : List String) (cs : List Char) : Option (Nat × List Char) :=
  go names 1
where
  go : List String → Nat → Option (Nat × List Char)
    | [], _ => none
    | n :: rest, k =>
      if n.data.isPrefixOf (cs.map Char.toLower) then some (k, cs.drop n.length)
      else go rest (k + 1)

/-- Partially parsed (day, month, resolved year) state. -/
structure StrpState where
  cs : List Char
  d : Nat
  m : Nat
  y : Nat

def runFmtTok (tok : FmtTok) (st : StrpState) : Option StrpState :=
  match tok with
  | .day =>
    let run := st.cs.takeWhile Char.isDigit
    let v := digitsToNat run
    if 1 ≤ run.length ∧ run.length ≤ 2 ∧ 1 ≤ v ∧ v ≤ 31 then
      some { st with cs := st.cs.drop run.length, d := v }
    else none
  | .mon =>
    let run := st.cs.takeWhile Char.isDigit
    let v := digitsToNat run
    if 1 ≤ run.length ∧ run.length ≤ 2 ∧ 1 ≤ v ∧ v ≤ 12 then
      some { st with cs := st.cs.drop run.length, m := v }
    else none
  | .year4 =>
    let run := st.cs.takeWhile Char.isDigit
    if run.length = 4 then
      some { st with cs := st.cs.drop 4, y := digitsToNat run }
    else none
  | .year2 =>
    let run := st.cs.takeWhile Char.isDigit
    let v := digitsToNat run
    if run.length = 2 then
      some { st with cs := st.cs.drop 2,
                     y := if v ≤ 68 then 2000 + v else 1900 + v }
    else none
  | .monAbbr =>
    match matchMonthName monthAbbrs st.cs with
    | some (k, rest) => some { st with cs := rest, m := k }
    | none => none
  | .monFull =>
    match matchMonthName monthFulls st.cs with
    | some (k, rest) => some { st with cs := rest, m := k }
    | none => none
  | .ws =>
    let sp := st.cs.takeWhile pySpace
    if sp = [] then none else some { st with cs := st.cs.dropWhile pySpace }
  | .lit c =>
    match st.cs with
    | c' :: rest => if c' = c then some { st with cs := rest } else none
    | [] => none

def runFmt : List FmtTok → StrpState → Option StrpState
  | [], st => some st
  | tok :: rest, st =>
    match runFmtTok tok st with
    | some st' => runFmt rest st'
    | none => none

/-- `datetime.strptime(s, fmt)` as an `Option` (a `ValueError` is `none`). -/
def strptime (fmt : List FmtTok) (s : String) : Option Date :=
  match runFmt fmt ⟨s.data, 0, 0, 0⟩ with
  | some st => if st.cs = [] then mkValidDate st.y st.m st.d else none
  | none => none

/-- The first format of a list that parses wins. -/
def strptimeFirst (fmts : List (List FmtTok)) (s : String) : Option Date :=
  fmts.findSome? (fun fmt => strptime fmt s)

/-- `'%d/%m/%Y'` etc.: the format list of
`AdvancedBankStatementParser._parse_date`, in source order, with the input
stripped first (`date_str.strip()` in the source). -/
def advDateFormats : List (List FmtTok) :=
  [[.day, .lit '/', .mon, .lit '/', .year4],
   [.day, .lit '-', .mon, .lit '-', .year4],
   [.year4, .lit '-', .mon, .lit '-', .day],
   [.day, .ws, .monAbbr, .ws, .year4],
   [.day, .lit '-', .monAbbr, .lit '-', .year4],
   [.day, .lit '/', .mon, .lit '/', .year2],
   [.mon, .lit '/', .day, .lit '/', .year4],
   [.year4, .lit '/', .mon, .lit '/', .day]]

/-- `AdvancedBankStatementParser._parse_date`. -/
def advParseDate (s : String) : Option Date :=
  strptimeFirst advDateFormats (pyStrip s)

/-- The format list of `EnhancedPDFParser._parse_date`, in source order
(the source lists two formats twice; the input is not stripped there). -/
def enhDateFormats : List (List FmtTok) :=
  [[.day, .lit '/', .mon, .lit '/', .year4],
   [.day, .lit '-', .mon, .lit '-', .year4],
   [.day, .lit '/', .mon, .lit '/', .year2],
   [.day, .lit '-', .mon, .lit '-', .year2],
   [.year4, .lit '/', .mon, .lit '/', .day],
   [.year4, .lit '-', .mon, .lit '-', .day],
   [.year4, .lit '/', .mon, .lit '/', .day],
   [.year4, .lit '-', .mon, .lit '-', .day],
   [.day, .ws, .monAbbr, .ws, .year4],
   [.day, .ws, .monFull, .ws, .year4]]

/-- `EnhancedPDFParser._parse_date` (raising is `none`; the one caller wraps
the call in `try/except`). -/
def enhParseDate (s : String) : Option Date :=
  strptimeFirst enhDateFormats s

/-- `'%Y-%m-%d'`, used by `GeminiPDFParser` on dates the model returns. -/
def ymdFormat : List FmtTok := [.year4, .lit '-', .mon, .lit '-', .day]

def parseDateYmd (s : String) : Option Date := strptime ymdFormat s

/-! ### `strftime`, for the format strings the sources use -/

/-- Zero-padded decimal rendering of width `w`. -/
def padNat (w n : Nat) : String :=
  let ds := (Nat.toDigits 10 n)
  ⟨List.replicate (w - ds.length) '0' ++ ds⟩

def monthAbbrCap : Nat → String
  | 1 => "Jan" | 2 => "Feb" | 3 => "Mar" | 4 => "Apr" | 5 => "May" | 6 => "Jun"
  | 7 => "Jul" | 8 => "Aug" | 9 => "Sep" | 10 => "Oct" | 11 => "Nov" | 12 => "Dec"
  | _ => ""

/-- `strftime('%Y-%m-%d')`. -/
def formatISO (d : Date) : String :=
  padNat 4 d.year ++ "-" ++ padNat 2 d.month ++ "-" ++ padNat 2 d.day

/-- `strftime('%d %b %Y')`. -/
def formatDMonY (d : Date) : String :=
  padNat 2 d.day ++ " " ++ monthAbbrCap d.month ++ " " ++ padNat 4 d.year

/-- `strftime('%d/%m/%Y')`. -/
def formatDMY (d : Date) : String :=
  padNat 2 d.day ++ "/" ++ padNat 2 d.month ++ "/" ++ padNat 4 d.year

/-- `strftime('%Y-%m')`. -/
def formatYM (d : Date) : String :=
  padNat 4 d.year ++ "-" ++ padNat 2 d.month

/-! ### `f"₹{amount:,.2f}"`

Rounds the decimal value to hundredths with ties to even, groups the integer
digits in threes with commas, and prefixes the rupee sign.  Python formats
the nearest binary double instead, so on a decimal third-digit tie the two
can differ — formatting 2.675 yields ₹2.67 there and ₹2.68 here; no theorem
below depends on the formatted string. -/

/-- The number of cents in an amount, rounded half to even: with
`num = m * 100` and `den = 10 ^ e`, compare twice the remainder of the floor
division against the denominator. -/
def roundHalfEvenCents (q : DecAmt) : Int :=
  let num := q.m * 100
  let den := (10 : Int) ^ q.e
  let fl := Int.fdiv num den
  let rem := num - fl * den
  if 2 * rem < den then fl
  else if den < 2 * rem then fl + 1
  else if fl % 2 = 0 then fl else fl + 1

/-- Insert a comma before every group of three digits, counting from the
right. -/
def commaGroup (ds : List Char) : List Char :=
  (go ds.reverse).reverse
where
  go : List Char → List Char
    | a :: b :: c :: d :: rest => a :: b :: c :: ',' :: go (d :: rest)
    | l => l

def formatAmount2 (q : DecAmt) : String :=
  let cents := roundHalfEvenCents q
  let sign := if cents < 0 then "-" else ""
  let n := cents.natAbs
  let ip := commaGroup (Nat.toDigits 10 (n / 100))
  "₹" ++ sign ++ ⟨ip⟩ ++ "." ++ padNat 2 (n % 100)

/-- `f"₹{amount:,.2f}"` on a Python float that may be special: `nan` and the
infinities print their names. -/
def formatAmountPF : PFloat → String
  | .fin a => formatAmount2 a
  | .inf neg => if neg then "₹-inf" else "₹inf"
  | .nan => "₹nan"

/-! ### Regular-expression scanners

Each Python pattern used by the parsers is small enough to implement
directly.  `re.search` scans positions left to right and returns the first
match; `re.findall` additionally continues after each match (matches do not
overlap); `re.sub(p, '', s)` deletes every such match.  The scanners recurse
on an explicit fuel, always at least the remaining input length plus one, and
consume at least one character per step, so the fuel never runs out. -/

/-- Python `\w` (ASCII): letters, digits, underscore. -/
def isWordChar (c : Char) : Bool := c.isAlphanum || c = '_'

/-- `\b\d{1,2}[/\x2d]\d{1,2}[/\x2d]\d{2,4}\b` attempted at one position (the
preceding-character word-boundary is checked by the caller).  A digit
directive matches exactly when the maximal digit run fits its width, because
backtracking a shorter run leaves a digit where a separator or boundary is
required. -/
def tryAdvDateAt (cs : List Char) : Option (List Char) := do
  let r1 := cs.takeWhile Char.isDigit
  if r1.length < 1 ∨ 2 < r1.length then none else
  match cs.drop r1.length with
  | s1 :: rest1 =>
    if s1 ≠ '/' ∧ s1 ≠ '-' then none else
    let r2 := rest1.takeWhile Char.isDigit
    if r2.length < 1 ∨ 2 < r2.length then none else
    match rest1.drop r2.length with
    | s2 :: rest2 =>
      if s2 ≠ '/' ∧ s2 ≠ '-' then none else
      let r3 := rest2.takeWhile Char.isDigit
      if r3.length < 2 ∨ 4 < r3.length then none else
      match rest2.drop r3.length with
      | c :: _ => if isWordChar c then none else
          some (r1 ++ [s1] ++ r2 ++ [s2] ++ r3)
      | [] => some (r1 ++ [s1] ++ r2 ++ [s2] ++ r3)
    | [] => none
  | [] => none

/-- `re.search(r'\b\d{1,2}[/\x2d]\d{1,2}[/\x2d]\d{2,4}\b', line)`:
the matched text of the first match. -/
def searchAdvDate (cs : List Char) : Option (List Char) :=
  go (cs.length + 1) none cs
where
  go : Nat → Option Char → List Char → Option (List Char)
    | 0, _, _ => none
    | _ + 1, _, [] => none
    | fuel + 1, prev, c :: rest =>
      let boundaryOk := match prev with
        | none => true
        | some p => ¬ isWordChar p
      match if boundaryOk then tryAdvDateAt (c :: rest) else none with
      | some m => some m
      | none => go fuel (some c) rest

/-- `[₹\s]*[\d,]+\.?\d*` attempted at one position: on success, the matched
text and its length. -/
def tryAdvAmountAt (cs : List Char) : Option (List Char × Nat) :=
  let sp := cs.takeWhile (fun c => c = '₹' || pySpace c)
  let rest := cs.drop sp.length
  let dc := rest.takeWhile (fun c => c.isDigit || c = ',')
  if dc = [] then none
  else
    let rest2 := rest.drop dc.length
    match rest2 with
    | '.' :: rest3 =>
      let fr := rest3.takeWhile Char.isDigit
      some (sp ++ dc ++ '.' :: fr, sp.length + dc.length + 1 + fr.length)
    | _ => some (sp ++ dc, sp.length + dc.length)

/-- `re.findall(r'[₹\s]*[\d,]+\.?\d*', line)`. -/
def findAdvAmounts (cs : List Char) : List (List Char) :=
  go (cs.length + 1) cs
where
  go : Nat → List Char → List (List Char)
    | 0, _ => []
    | _ + 1, [] => []
    | fuel + 1, c :: rest =>
      match tryAdvAmountAt (c :: rest) with
      | some (m, n) => m :: go fuel ((c :: rest).drop (max n 1))
      | none => go fuel rest

/-- One cleaned amount candidate of `_parse_text_with_regex`:
`match.replace(',', '').replace('₹', '').strip()`, the
`.replace('.', '').isdigit()` guard, then `float` (whose `ValueError` the
source catches and skips). -/
def advAmountOfToken (tok : List Char) : Option DecAmt :=
  let clean := pyStrip (removeChars ⟨tok⟩ [',', '₹'])
  if ((removeChars clean ['.']) ≠ "" ∧
      (removeChars clean ['.']).data.all Char.isDigit) then
    floatOfCleaned clean
  else none

/-- The parsed amounts of a line in `_parse_text_with_regex`. -/
def advLineAmounts (line : String) : List DecAmt :=
  (findAdvAmounts line.data).filterMap advAmountOfToken

/-! #### Pattern alternations built from literal words

The bank-name and category patterns are alternations of word sequences
joined by `\s*` (for example `KOTAK\s*MAHINDRA\s*BANK|kotak`).  A sequence
matches at a position when its words appear in order separated by optional
whitespace; no word starts with whitespace, so greedy whitespace consumption
is exact.  The empty sequence models the catch-all `.*`, which matches
everywhere (also on an empty string). -/

def matchPartsAt (cs : List Char) : List String → Bool
  | [] => true
  | p :: ps =>
    p.data.isPrefixOf cs &&
      (match ps with
       | [] => true
       | _ => matchPartsAt ((cs.drop p.length).dropWhile pySpace) ps)

/-- `re.search` of an alternation of word sequences: does any alternative
match at any position (including the position at end of input)? -/
def searchAlts (alts : List (List String)) (cs : List Char) : Bool :=
  go (cs.length + 1) cs
where
  go : Nat → List Char → Bool
    | 0, _ => false
    | fuel + 1, l =>
      alts.any (matchPartsAt l) ||
        (match l with
         | [] => false
         | _ :: rest => go fuel rest)

/-- The `'name'` patterns of `BANK_PATTERNS`, in dict order.  The source
searches them with `re.IGNORECASE` over `text.upper()`, so both case
variants of each alternation collapse to its uppercase words. -/
def BANK_PATTERNS : List (String × List (List String)) :=
  [("HDFC", [["HDFC", "BANK"]]),
   ("ICICI", [["ICICI", "BANK"]]),
   ("SBI", [["STATE", "BANK", "OF", "INDIA"], ["SBI"]]),
   ("AXIS", [["AXIS", "BANK"]]),
   ("KOTAK", [["KOTAK", "MAHINDRA", "BANK"], ["KOTAK"]])]

/-- `AdvancedBankStatementParser.detect_bank`. -/
def detect_bank (text : String) : Option String :=
  (BANK_PATTERNS.find? (fun bp => searchAlts bp.2 (pyUpper text).data)).map (·.1)

/-- `CATEGORY_PATTERNS` of `AdvancedBankStatementParser`, in dict order.  The
final `'others'` entry is the catch-all `r'.*'`.  (`'DMart'` is kept verbatim:
the source searches case-sensitively over the uppercased description, so that
alternative can never match, faithfully.) -/
def CATEGORY_PATTERNS : List (String × List (List String)) :=
  [("food_dining", [["SWIGGY"], ["ZOMATO"], ["DOMINOS"], ["PIZZA"],
      ["RESTAURANT"], ["CAFE"], ["HOTEL"], ["FOOD"], ["DINING"]]),
   ("groceries", [["BIGBASKET"], ["GROFERS"], ["DMart"], ["RELIANCE"],
      ["FRESH"], ["GROCERY"], ["SUPERMARKET"], ["WALMART"]]),
   ("fuel", [["PETROL"], ["DIESEL"], ["FUEL"], ["HP"], ["BPCL"], ["IOCL"],
      ["SHELL"], ["BHARAT", "PETROLEUM"]]),
   ("utilities", [["ELECTRICITY"], ["WATER"], ["GAS"], ["BROADBAND"],
      ["INTERNET"], ["MOBILE"], ["TELECOM"], ["AIRTEL"], ["JIO"], ["VI"]]),
   ("entertainment", [["NETFLIX"], ["AMAZON", "PRIME"], ["HOTSTAR"],
      ["SPOTIFY"], ["BOOKMYSHOW"], ["CINEMA"], ["MOVIE"]]),
   ("transportation", [["UBER"], ["OLA"], ["METRO"], ["BUS"], ["RAILWAY"],
      ["IRCTC"], ["AUTO"], ["TAXI"], ["TRANSPORT"]]),
   ("shopping", [["AMAZON"], ["FLIPKART"], ["MYNTRA"], ["SHOPPING"],
      ["MALL"], ["STORE"], ["RETAIL"]]),
   ("medical", [["HOSPITAL"], ["MEDICAL"], ["PHARMACY"], ["APOLLO"],
      ["DOCTOR"], ["HEALTH"], ["MEDICINE"]]),
   ("education", [["SCHOOL"], ["COLLEGE"], ["UNIVERSITY"], ["EDUCATION"],
      ["COURSE"], ["TRAINING"], ["TUITION"]]),
   ("investment", [["MUTUAL", "FUND"], ["SIP"], ["INSURANCE"],
      ["INVESTMENT"], ["ZERODHA"], ["GROWW"], ["UPSTOX"]]),
   ("transfer", [["TRANSFER"], ["NEFT"], ["RTGS"], ["IMPS"], ["UPI"],
      ["PAYTM"], ["PHONEPE"], ["GPAY"], ["WALLET"]]),
   ("salary", [["SALARY"], ["SAL", "CREDIT"], ["PAYROLL"], ["WAGES"],
      ["INCOME"]]),
   ("bank_charges", [["CHARGES"], ["FEE"], ["PENALTY"], ["INTEREST"],
      ["MAINTENANCE"], ["SERVICE"]]),
   ("cash_withdrawal", [["ATM", "WDL"], ["CASH", "WITHDRAWAL"], ["ATM"],
      ["WITHDRAWAL"]]),
   ("others", [[]])]

/-- First category whose pattern matches; `'others'` after the loop. -/
def firstMatchCat (txt : List Char) : List (String × List (List String)) → String
  | [] => "others"
  | (c, alts) :: rest =>
    if searchAlts alts txt then c else firstMatchCat txt rest

/-- `AdvancedBankStatementParser._categorize_transaction`. -/
def advCategorize (description : String) : String :=
  firstMatchCat (pyUpper description).data CATEGORY_PATTERNS

/-- `EnhancedPDFParser._categorize_transaction`: an if/elif chain of
substring tests over the lowercased description. -/
def enhCategorize (description : String) : String :=
  let d := pyLower description
  if ["salary", "pay", "income"].any (strContains d) then "salary"
  else if ["atm", "cash", "withdrawal"].any (strContains d) then "cash_withdrawal"
  else if ["grocery", "supermarket", "food", "swiggy", "zomato"].any (strContains d) then "groceries"
  else if ["fuel", "petrol", "gas", "diesel"].any (strContains d) then "fuel"
  else if ["restaurant", "dining", "cafe", "hotel"].any (strContains d) then "food_dining"
  else if ["electricity", "water", "utility", "bill", "rent"].any (strContains d) then "utilities"
  else if ["medical", "hospital", "pharmacy", "doctor"].any (strContains d) then "medical"
  else if ["shopping", "mall", "store", "amazon", "flipkart"].any (strContains d) then "shopping"
  else if ["transfer", "neft", "imps", "rtgs", "upi"].any (strContains d) then "transfer"
  else if ["emi", "loan", "interest"].any (strContains d) then "loan"
  else "others"

/-! ### The advanced parser's transaction records

Transaction dicts of `AdvancedBankStatementParser`.  Keys a given dict lacks
(`category` and the formatted fields before
`_clean_and_categorize_transactions` runs, `raw_data` on regex-extracted
records) default to the empty value.  Truthiness of `date` is `isSome`, of
`amount` is `≠ 0`. -/

structure Txn where
  date : Option Date
  description : String
  amount : DecAmt
  type : String
  bank : Option String
  category : String := ""
  month : String := ""
  formattedDate : String := ""
  formattedAmount : String := ""
  rawData : List (String × String) := []
deriving DecidableEq, Repr

/-- Python-dict insertion: overwrite in place if the key exists, else append.
Used where the source builds `row_dict`. -/
def dictInsert (d : List (String × String)) (k v : String) :
    List (String × String) :=
  if d.any (·.1 = k) then d.map (fun kv => if kv.1 = k then (k, v) else kv)
  else d ++ [(k, v)]

/-- `str(cell).strip() if cell else ''` on a `pdfplumber` table cell
(`None` or a string, both falsy values mapping to `''`). -/
def cellClean : Option String → String
  | none => ""
  | some s => if s = "" then "" else pyStrip s

/-- `str(v)` on a pandas cell, where `NaN` prints as `"nan"` (and is truthy,
like the nonempty string `"nan"`). -/
def cellStr : Option String → String
  | none => "nan"
  | some s => s

/-! #### `_extract_transaction_from_dict` and its helpers -/

/-- The inner loop over one search pattern in
`_extract_transaction_from_dict`: the first dict item whose lowercased key
contains the pattern and whose value is truthy.  The source `break`s on that
item whether or not the value then parses. -/
def firstKeyHit (rows : List (String × String)) (pat : String) : Option String :=
  (rows.find? (fun kv => strContains (pyLower kv.1) pat && kv.2 ≠ "")).map (·.2)

/-- The date-finding loop: for each pattern in order, parse the first hit;
move to the next pattern while `date_value` is still falsy. -/
def findDateValue (rows : List (String × String)) : Option Date :=
  ["date", "txn date", "transaction date", "value date"].foldl
    (fun acc pat =>
      match acc with
      | some d => some d
      | none => (firstKeyHit rows pat).bind advParseDate)
    none

/-- The description-finding loop (a stripped-to-empty hit keeps looking). -/
def findDescription (rows : List (String × String)) : String :=
  ["description", "particulars", "narration", "details"].foldl
    (fun acc pat =>
      if acc ≠ "" then acc
      else match firstKeyHit rows pat with
        | some v => pyStrip v
        | none => "")
    ""

/-- One candidate of `_extract_amount`:
`str(value).replace(',', '').replace('₹', '').replace('-', '').strip()`, the
nonemptiness and `.replace('.', '').isdigit()` guards, then `float` (whose
exceptions the surrounding `try` turns into continuing the scan). -/
def amountCell (v : String) : Option DecAmt :=
  let clean := pyStrip (removeChars v [',', '₹', '-'])
  if clean ≠ "" ∧ (removeChars clean ['.']).data.all Char.isDigit then
    floatOfCleaned clean
  else none

/-- `AdvancedBankStatementParser._extract_amount`: first value over
(pattern, item) pairs in loop order that parses. -/
def extract_amount (rows : List (String × String)) (pats : List String) :
    Option DecAmt :=
  pats.findSome? (fun pat =>
    rows.findSome? (fun kv =>
      if strContains (pyLower kv.1) pat ∧ kv.2 ≠ "" then amountCell kv.2
      else none))

/-- `AdvancedBankStatementParser._extract_transaction_from_dict`. -/
def extractTransactionFromDict (rows : List (String × String))
    (bank : Option String) : Option Txn :=
  match findDateValue rows with
  | none => none
  | some dateValue =>
    let description := findDescription rows
    let debit := extract_amount rows ["debit", "withdrawal", "dr"]
    let credit := extract_amount rows ["credit", "deposit", "cr"]
    match credit with
    | some c =>
      if c.posB then
        some { date := some dateValue, description := description, amount := c,
               type := "credit", bank := bank, rawData := rows }
      else match debit with
        | some d =>
          if d.posB then
            some { date := some dateValue, description := description,
                   amount := d, type := "debit", bank := bank, rawData := rows }
          else none
        | none => none
    | none =>
      match debit with
      | some d =>
        if d.posB then
          some { date := some dateValue, description := description,
                 amount := d, type := "debit", bank := bank, rawData := rows }
        else none
      | none => none

/-! #### `_parse_text_with_regex` -/

/-- The body of the per-line loop of `_parse_text_with_regex`, applied to an
already-stripped line (empty lines are skipped). -/
def regexLineTxn (line : String) (bank : Option String) : Option Txn :=
  if line = "" then none
  else
    match searchAdvDate line.data with
    | none => none
    | some dateStr =>
      match advParseDate ⟨dateStr⟩ with
      | none => none
      | some dateObj =>
        match advLineAmounts line with
        | [] => none
        | a :: rest =>
          let ty :=
            if ["CREDIT", "DEPOSIT", "CR"].any (strContains (pyUpper line)) then
              "credit"
            else "debit"
          some { date := some dateObj, description := line,
                 amount := DecAmt.listMax a rest, type := ty, bank := bank }

/-- `AdvancedBankStatementParser._parse_text_with_regex`. -/
def parseTextWithRegex (text : String) (bank : Option String) : List Txn :=
  (splitLines text).filterMap (fun l => regexLineTxn (pyStrip l) bank)

/-! #### `_clean_and_categorize_transactions` -/

/-- The truthiness filter at the top of the cleanup loop. -/
def goodTxn (t : Txn) : Bool := t.date.isSome && t.amount.truthy

/-- The per-record mutation of the cleanup loop: categorize and attach the
derived display fields. -/
def cleanUpdate (t : Txn) : Txn :=
  let d := t.date.getD ⟨1900, 1, 1⟩
  { t with category := advCategorize t.description,
           month := formatYM d,
           formattedDate := formatDMY d,
           formattedAmount := formatAmount2 t.amount }

/-- The sort key relation of `cleaned_transactions.sort(key=..., reverse=True)`:
newest date first.  Every record reaching the sort has a date; the default is
unreachable there. -/
def txnGe (a b : Txn) : Prop :=
  Date.le (b.date.getD ⟨1, 1, 1⟩) (a.date.getD ⟨1, 1, 1⟩)

instance : DecidableRel txnGe := fun _ _ =>
  inferInstanceAs (Decidable (Date.le _ _))

instance : IsTotal Txn txnGe :=
  ⟨by intro a b; unfold txnGe Date.le; omega⟩

instance : IsTrans Txn txnGe :=
  ⟨by intro a b c; unfold txnGe Date.le; omega⟩

/-- `AdvancedBankStatementParser._clean_and_categorize_transactions`:
filter out falsy-date/amount records, categorize and decorate the rest, then
stable-sort by date, newest first. -/
def cleanAndCategorize (transactions : List Txn) : List Txn :=
  List.insertionSort txnGe ((transactions.filter goodTxn).map cleanUpdate)

/-! ### The advanced parser's pipeline level

Decoded collaborator data: a `pdfplumber` page exposes an optional text layer
and extracted tables (cells may be `None`); a pandas `DataFrame` (from
camelot, `read_csv` or `read_excel`) has column labels and rows whose cells
may be `NaN` (`none` here). -/

structure PdfPage where
  text : Option String
  tables : List (List (List (Option String)))

structure DF where
  cols : List String
  rows : List (List (Option String))

/-- `df.empty`. -/
def dfEmpty (df : DF) : Bool := df.rows.isEmpty || df.cols.isEmpty

/-- `_extract_transaction_from_row`: build `row_dict` from headers and
cells (`str(row[i]).strip() if row[i] else ''` for `i < len(row)`), then
extract. -/
def extractTransactionFromRow (row : List (Option String))
    (headers : List String) (bank : Option String) : Option Txn :=
  let rowDict := (headers.zip row).foldl
    (fun d kv => dictInsert d kv.1 (cellClean kv.2)) []
  extractTransactionFromDict rowDict bank

/-- `AdvancedBankStatementParser._process_table_data`. -/
def processTableData (table : List (List (Option String)))
    (bank : Option String) : List Txn :=
  if table.length < 2 then []
  else
    let headers := (table.headD []).map cellClean
    (table.drop 1).filterMap (fun row =>
      if 3 ≤ row.length then extractTransactionFromRow row headers bank
      else none)

/-- `_extract_transaction_from_series`: `row.to_dict()` over the (cleaned)
column labels, `NaN` cells printing as `"nan"`. -/
def extractTransactionFromSeries (cols : List String)
    (row : List (Option String)) (bank : Option String) : Option Txn :=
  let rowDict := (cols.zip row).foldl
    (fun d kv => dictInsert d kv.1 (cellStr kv.2)) []
  extractTransactionFromDict rowDict bank

/-- `AdvancedBankStatementParser._process_dataframe`: strip column names,
drop all-`NaN` rows, extract per row. -/
def processDataframe (df : DF) (bank : Option String) : List Txn :=
  let cols := df.cols.map pyStrip
  ((df.rows.filter (fun r => ¬ r.all (·.isNone))).filterMap
    (fun r => extractTransactionFromSeries cols r bank))

/-- The page-scanning fold of `_parse_pdf_with_pdfplumber`: accumulates
`full_text`, the first successfully detected bank, and the table-extracted
transactions (tables are only read on pages with a truthy text layer, and use
the bank detected up to that page). -/
def pdfplumberScan (pages : List PdfPage) :
    String × Option String × List Txn :=
  pages.foldl
    (fun acc page =>
      match page.text with
      | none => acc
      | some t =>
        if t = "" then acc
        else
          let fullText := acc.1 ++ t
          let bank := match acc.2.1 with
            | some b => some b
            | none => detect_bank t
          let txns := acc.2.2 ++
            (page.tables.foldl (fun ts table =>
              if table ≠ [] ∧ 1 < table.length then
                ts ++ processTableData table bank
              else ts) [])
          (fullText, bank, txns))
    ("", none, [])

/-- `AdvancedBankStatementParser._parse_pdf_with_pdfplumber`. -/
def parsePdfWithPdfplumber (pages : List PdfPage) : List Txn :=
  let scan := pdfplumberScan pages
  let transactions :=
    if scan.2.2 = [] ∧ scan.1 ≠ "" then parseTextWithRegex scan.1 scan.2.1
    else scan.2.2
  cleanAndCategorize transactions

/-- `AdvancedBankStatementParser._parse_pdf_with_camelot` (`camelot.read_pdf`
results passed in; any raised exception is caught there and yields `[]`). -/
def parsePdfWithCamelot (read : Except String (List DF)) : List Txn :=
  match read with
  | .error _ => []
  | .ok tables =>
    let scan := tables.foldl
      (fun (acc : Option String × List Txn) df =>
        if ¬ dfEmpty df ∧ 4 ≤ df.cols.length then
          let bank := match acc.1 with
            | some b => some b
            | none =>
              detect_bank (joinSpace ((df.rows.headD []).map cellStr))
          (bank, acc.2 ++ processDataframe df bank)
        else acc)
      (none, [])
    cleanAndCategorize scan.2

/-- `AdvancedBankStatementParser._parse_pdf_with_ocr` (per-page OCR text
passed in; any raised exception is caught there and yields `[]`). -/
def parsePdfWithOcr (read : Except String (List String)) : List Txn :=
  match read with
  | .error _ => []
  | .ok pageTexts =>
    let fullText := pageTexts.foldl (fun a t => a ++ t ++ "\n") ""
    cleanAndCategorize (parseTextWithRegex fullText (detect_bank fullText))

/-- The dict a parse method returns: `transactions` always present, `error`
only on failure, `method`/`sheet` on the success paths that set them. -/
structure StmtResult where
  transactions : List Txn
  error : Option String := none
  method : Option String := none
  sheet : Option String := none
deriving DecidableEq, Repr

/-- `AdvancedBankStatementParser._parse_pdf_statement`: the fallback chain
pdfplumber → camelot → OCR, each later method reached only when the previous
returned an empty list; opening the PDF can raise, caught by this frame. -/
def parsePdfStatement (pdfIn : Except String (List PdfPage))
    (camIn : Except String (List DF)) (ocrIn : Except String (List String)) :
    StmtResult :=
  match pdfIn with
  | .error e => { transactions := [], error := some e }
  | .ok pages =>
    let t1 := parsePdfWithPdfplumber pages
    if t1 ≠ [] then { transactions := t1, method := some "pdfplumber" }
    else
      let t2 := parsePdfWithCamelot camIn
      if t2 ≠ [] then { transactions := t2, method := some "camelot" }
      else { transactions := parsePdfWithOcr ocrIn, method := some "ocr" }

/-- How reading a CSV can go in `_parse_csv_statement`: every encoding raised
`UnicodeDecodeError` (the source then raises, catches its own `ValueError`),
some other exception, or a decoded frame. -/
inductive CsvIn where
  | allEncodingsFailed
  | raised (msg : String)
  | ok (df : DF)

/-- `AdvancedBankStatementParser._parse_csv_statement`. -/
def parseCsvStatement (read : CsvIn) : StmtResult :=
  match read with
  | .allEncodingsFailed =>
    { transactions := [],
      error := some "Could not read CSV file with any encoding" }
  | .raised m => { transactions := [], error := some m }
  | .ok df =>
    let bank := detect_bank (joinSpace df.cols)
    { transactions := cleanAndCategorize (processDataframe df bank),
      method := some "csv" }

/-- `AdvancedBankStatementParser._parse_excel_statement`: first sheet with at
least one row, at least four columns and a nonempty extraction wins. -/
def parseExcelStatement (read : Except String (List (String × DF))) :
    StmtResult :=
  match read with
  | .error m => { transactions := [], error := some m }
  | .ok sheets => go sheets
where
  go : List (String × DF) → StmtResult
    | [] =>
      { transactions := [],
        error := some "No valid transaction data found in Excel file" }
    | (name, df) :: rest =>
      if 0 < df.rows.length ∧ 4 ≤ df.cols.length then
        let bank := detect_bank (joinSpace df.cols)
        let txns := processDataframe df bank
        if txns ≠ [] then
          { transactions := cleanAndCategorize txns, method := some "excel",
            sheet := some name }
        else go rest
      else go rest

/-- `AdvancedBankStatementParser._parse_image_statement` (OCR text passed in;
a raise is caught by this frame). -/
def parseImageStatement (read : Except String String) : StmtResult :=
  match read with
  | .error m => { transactions := [], error := some m }
  | .ok text =>
    { transactions :=
        cleanAndCategorize (parseTextWithRegex text (detect_bank text)),
      method := some "ocr_image" }

/-- `AdvancedBankStatementParser.parse_statement`: dispatch on the lowercased
file extension; an unsupported extension raises `ValueError`, caught by the
same frame's `except`, which returns `{'error': str(e), 'transactions': []}`. -/
def parse_statement (suffix : String) (pdfIn : Except String (List PdfPage))
    (camIn : Except String (List DF)) (ocrIn : Except String (List String))
    (csvIn : CsvIn) (excelIn : Except String (List (String × DF)))
    (imgIn : Except String String) : StmtResult :=
  let extension := pyLower suffix
  if extension = ".pdf" then parsePdfStatement pdfIn camIn ocrIn
  else if extension = ".csv" then parseCsvStatement csvIn
  else if extension = ".xlsx" ∨ extension = ".xls" then
    parseExcelStatement excelIn
  else if extension = ".jpg" ∨ extension = ".jpeg" ∨ extension = ".png" ∨
      extension = ".tiff" then
    parseImageStatement imgIn
  else
    { transactions := [],
      error := some ("Unsupported file format: " ++ extension) }

/-! ### The enhanced PDF parser (`enhanced_pdf_parser.py`)

Its transaction dicts carry dates as already-formatted strings.  The sample
records it falls back to have no `bank` key (`none` here). -/

structure ETxn where
  date : String
  formattedDate : String
  description : String
  amount : DecAmt
  formattedAmount : String
  type : String
  category : String
  bank : Option String := none
deriving DecidableEq, Repr

/-- Generic `re.search`: first position where the matcher succeeds. -/
def searchPat {α : Type} (tryAt : List Char → Option α) (cs : List Char) :
    Option α :=
  go (cs.length + 1) cs
where
  go : Nat → List Char → Option α
    | 0, _ => none
    | fuel + 1, l =>
      match tryAt l with
      | some r => some r
      | none =>
        match l with
        | [] => none
        | _ :: rest => go fuel rest

/-- Generic `re.findall` over matchers that report their full match length
(all the patterns here match at least one character). -/
def findallPat {α : Type} (tryAt : List Char → Option (α × Nat))
    (cs : List Char) : List α :=
  go (cs.length + 1) cs
where
  go : Nat → List Char → List α
    | 0, _ => []
    | _ + 1, [] => []
    | fuel + 1, c :: rest =>
      match tryAt (c :: rest) with
      | some (r, n) => r :: go fuel ((c :: rest).drop (max n 1))
      | none => go fuel rest

/-- Generic `re.sub(pattern, '', s)` over matchers reporting match length. -/
def subPat (tryAt : List Char → Option Nat) (cs : List Char) : List Char :=
  go (cs.length + 1) cs
where
  go : Nat → List Char → List Char
    | 0, l => l
    | _ + 1, [] => []
    | fuel + 1, c :: rest =>
      match tryAt (c :: rest) with
      | some n => go fuel ((c :: rest).drop (max n 1))
      | none => c :: go fuel rest

/-- The next `n` characters, if they are all digits. -/
def takeDigitsN (n : Nat) (cs : List Char) : Option (List Char × List Char) :=
  let run := cs.take n
  if run.length = n ∧ run.all Char.isDigit then some (run, cs.drop n)
  else none

/-- One of `[/\x2d]`. -/
def takeSep : List Char → Option (Char × List Char)
  | c :: rest => if c = '/' ∨ c = '-' then some (c, rest) else none
  | [] => none

/-- `\d{a}[/\x2d]\d{b}[/\x2d]\d{c}` at one position (the enhanced parser's
numeric date patterns have no word boundaries and fixed digit counts). -/
def tryNumDateAt (a b c : Nat) (cs : List Char) : Option (List Char × Nat) := do
  let (d1, r1) ← takeDigitsN a cs
  let (s1, r2) ← takeSep r1
  let (d2, r3) ← takeDigitsN b r2
  let (s2, r4) ← takeSep r3
  let (d3, _) ← takeDigitsN c r4
  let m := d1 ++ [s1] ++ d2 ++ [s2] ++ d3
  some (m, m.length)

/-- `\s+`: at least one whitespace character, greedily. -/
def takeWs1 (cs : List Char) : Option (Nat × List Char) :=
  let sp := cs.takeWhile pySpace
  if sp = [] then none else some (sp.length, cs.drop sp.length)

/-- A three-letter month abbreviation, case-insensitively. -/
def takeMonAbbr (cs : List Char) : Option (List Char) :=
  if monthAbbrs.any (fun n => n.data = (cs.take 3).map Char.toLower) then
    some (cs.take 3)
  else none

/-- `\d{1,2}\s+(?:Jan|…|Dec)\s+\d{4}` at one position: `\d{1,2}` tries two
digits, then one (regex backtracking). -/
def tryMonDateAt (cs : List Char) : Option (List Char × Nat) :=
  (attempt 2).orElse (fun _ => attempt 1)
where
  attempt (k : Nat) : Option (List Char × Nat) := do
    let (d1, r1) ← takeDigitsN k cs
    let (w1, r2) ← takeWs1 r1
    let mon ← takeMonAbbr r2
    let (w2, r4) ← takeWs1 (r2.drop 3)
    let (d2, _) ← takeDigitsN 4 r4
    let m := d1 ++ (r1.take w1) ++ mon ++ ((r2.drop 3).take w2) ++ d2
    some (m, m.length)

/-- `[\d,]+\.\d{2}`: the capture group shared by the three
`amount_patterns`. -/
def takeAmountGroup (cs : List Char) : Option (List Char × List Char) :=
  let dc := cs.takeWhile (fun c => c.isDigit || c = ',')
  if dc = [] then none
  else
    match cs.drop dc.length with
    | '.' :: rest =>
      (takeDigitsN 2 rest).map (fun (fr, r) => (dc ++ '.' :: fr, r))
    | _ => none

/-- `₹?\s*([\d,]+\.\d{2})` at one position: group and full match length. -/
def tryAmtRupeeAt (cs : List Char) : Option (List Char × Nat) :=
  let (pre, rest) := match cs with
    | '₹' :: r => (1, r)
    | _ => (0, cs)
  let sp := rest.takeWhile pySpace
  (takeAmountGroup (rest.drop sp.length)).map
    (fun (g, _) => (g, pre + sp.length + g.length))

/-- `Rs\.?\s*([\d,]+\.\d{2})` at one position (case-sensitive: the source
calls `re.findall` on it without flags). -/
def tryAmtRsAt (cs : List Char) : Option (List Char × Nat) :=
  match cs with
  | 'R' :: 's' :: r1 =>
    let (dot, r2) := match r1 with
      | '.' :: r => (1, r)
      | _ => (0, r1)
    let sp := r2.takeWhile pySpace
    (takeAmountGroup (r2.drop sp.length)).map
      (fun (g, _) => (g, 2 + dot + sp.length + g.length))
  | _ => none

/-- `INR\s*([\d,]+\.\d{2})` at one position (case-sensitive). -/
def tryAmtInrAt (cs : List Char) : Option (List Char × Nat) :=
  match cs with
  | 'I' :: 'N' :: 'R' :: r1 =>
    let sp := r1.takeWhile pySpace
    (takeAmountGroup (r1.drop sp.length)).map
      (fun (g, _) => (g, 3 + sp.length + g.length))
  | _ => none

/-- `INR\s+([\d,]+\.?\d*)` at one position, case-insensitively
(`inr_pattern`, searched with `re.IGNORECASE`). -/
def tryInrLooseAt (cs : List Char) : Option (List Char × Nat) :=
  if (cs.take 3).map Char.toLower = ['i', 'n', 'r'] then do
    let (w, r1) ← takeWs1 (cs.drop 3)
    let dc := r1.takeWhile (fun c => c.isDigit || c = ',')
    if dc = [] then none
    else
      match r1.drop dc.length with
      | '.' :: r2 =>
        let fr := r2.takeWhile Char.isDigit
        let g := dc ++ '.' :: fr
        some (g, 3 + w + g.length)
      | _ => some (dc, 3 + w + dc.length)
  else none

/-- `float(match.replace(',', ''))` on a captured amount group, keeping only
positive values (`if amount > 0`); a `ValueError` just skips the group. -/
def enhAmountOfGroup (g : List Char) : Option DecAmt :=
  (floatOfCleaned (removeChars ⟨g⟩ [','])).bind
    (fun q => if q.posB then some q else none)

/-- The amount list of `_extract_transaction_from_line`: the `INR`-prefixed
amounts if any parse, otherwise the three generic `amount_patterns`
concatenated in order. -/
def enhLineAmounts (line : String) : List DecAmt :=
  let cs := line.data
  let inr := (findallPat tryInrLooseAt cs).filterMap enhAmountOfGroup
  if inr ≠ [] then inr
  else
    ((findallPat tryAmtRupeeAt cs).filterMap enhAmountOfGroup) ++
    ((findallPat tryAmtRsAt cs).filterMap enhAmountOfGroup) ++
    ((findallPat tryAmtInrAt cs).filterMap enhAmountOfGroup)

def credit_keywords : List String :=
  ["credit", "deposit", "salary", "transfer credit", "neft cr",
   "imps cr", "rtgs cr", "upi cr", "refund", "interest credited"]

def debit_keywords : List String :=
  ["debit", "withdrawal", "payment", "transfer debit", "neft dr",
   "imps dr", "rtgs dr", "upi", "atm", "pos", "emi", "charges"]

/-- `re.search(r'-\s*INR', line)` / `r'\+\s*INR'` (case-sensitive). -/
def searchSignINR (sign : Char) (cs : List Char) : Bool :=
  (searchPat
    (fun l =>
      match l with
      | c :: r =>
        if c = sign ∧ (r.dropWhile pySpace).take 3 = ['I', 'N', 'R'] then
          some ()
        else none
      | [] => none)
    cs).isSome

/-- `str.title()` (used as `txn_type.title()`). -/
def pyTitle (s : String) : String :=
  ⟨(go false s.data)⟩
where
  go : Bool → List Char → List Char
    | _, [] => []
    | prevAlpha, c :: rest =>
      (if c.isAlpha then (if prevAlpha then c.toLower else c.toUpper) else c) ::
        go c.isAlpha rest

/-- The description computed at the end of `_extract_transaction_from_line`
(reachable only on the textual-month date path): the line with date tokens,
amount tokens and sign characters deleted and whitespace collapsed. -/
def enhStripDescription (line : String) : String :=
  let cs := line.data
  let cs := subPat (fun l => (tryNumDateAt 2 2 4 l).map (·.2)) cs
  let cs := subPat (fun l => (tryNumDateAt 2 2 2 l).map (·.2)) cs
  let cs := subPat (fun l => (tryNumDateAt 4 2 2 l).map (·.2)) cs
  let cs := subPat (fun l => (tryMonDateAt l).map (·.2)) cs
  let cs := subPat (fun l => (tryAmtRupeeAt l).map (·.2)) cs
  let cs := subPat (fun l => (tryAmtRsAt l).map (·.2)) cs
  let cs := subPat (fun l => (tryAmtInrAt l).map (·.2)) cs
  let cs := subPat (fun l => (tryInrLooseAt l).map (·.2)) cs
  collapseWs (removeChars ⟨cs⟩ ['-', '+'])

/-- `EnhancedPDFParser._extract_transaction_from_line`.

The source assigns `mon_pattern` only inside the `if not date_str:` block but
always uses it when stripping the description.  When the date was found by a
numeric pattern and amounts were found (so the stripping code is reached),
the method therefore raises `UnboundLocalError`, modelled as `.error ()`;
the earlier `return None` paths are unaffected. -/
def extractTransactionFromLine (line : String) : Except Unit (Option ETxn) :=
  let cs := line.data
  let numDate :=
    match searchPat (fun l => (tryNumDateAt 2 2 4 l).map Prod.fst) cs with
    | some m => some m
    | none =>
      match searchPat (fun l => (tryNumDateAt 2 2 2 l).map Prod.fst) cs with
      | some m => some m
      | none => searchPat (fun l => (tryNumDateAt 4 2 2 l).map Prod.fst) cs
  let dateInfo : Option (List Char × Bool) :=
    match numDate with
    | some m => some (m, true)
    | none =>
      match searchPat (fun l => (tryMonDateAt l).map Prod.fst) cs with
      | some m => some (m, false)
      | none => none
  match dateInfo with
  | none => .ok none
  | some (dateStr, fromNumeric) =>
    match enhParseDate ⟨dateStr⟩ with
    | none => .ok none
    | some dateObj =>
      match enhLineAmounts line with
      | [] => .ok none
      | amount :: _ =>
        let ll := pyLower line
        let isCredit := credit_keywords.any (strContains ll)
        let isDebit := debit_keywords.any (strContains ll)
        let isCredit :=
          if ¬ isCredit ∧ ¬ isDebit then
            !searchSignINR '-' cs && searchSignINR '+' cs
          else isCredit
        let txnType := if isCredit then "credit" else "debit"
        if fromNumeric then .error ()
        else
          let description := enhStripDescription line
          let description :=
            if description = "" ∨ description.length < 3 then
              pyTitle txnType ++ " Transaction"
            else description
          let category := enhCategorize description
          .ok (some
            { date := formatISO dateObj,
              formattedDate := formatDMonY dateObj,
              description := pyTake description 200,
              amount := amount,
              formattedAmount := formatAmount2 amount,
              type := txnType,
              category := category,
              bank := some "Indian Bank" })

/-- `EnhancedPDFParser._parse_transactions_from_text`: skip blank or short
lines, collect extracted records; an exception in the line extractor
propagates out of this frame. -/
def parseTransactionsFromText (text : String) : Except Unit (List ETxn) :=
  go (splitLines text)
where
  go : List String → Except Unit (List ETxn)
    | [] => .ok []
    | l :: rest =>
      let line := pyStrip l
      if line = "" ∨ line.length < 20 then go rest
      else
        match extractTransactionFromLine line with
        | .error e => .error e
        | .ok none => go rest
        | .ok (some t) => (go rest).map (t :: ·)

/-! #### `_get_sample_transactions` and `parse_pdf` -/

/-- The next calendar day. -/
def Date.succD (d : Date) : Date :=
  if d.day < daysInMonth d.year d.month then ⟨d.year, d.month, d.day + 1⟩
  else if d.month < 12 then ⟨d.year, d.month + 1, 1⟩
  else ⟨d.year + 1, 1, 1⟩

/-- The previous calendar day. -/
def Date.predD (d : Date) : Date :=
  if 1 < d.day then ⟨d.year, d.month, d.day - 1⟩
  else if 1 < d.month then ⟨d.year, d.month - 1, daysInMonth d.year (d.month - 1)⟩
  else ⟨d.year - 1, 12, 31⟩

def addDays (d : Date) : Nat → Date
  | 0 => d
  | n + 1 => (addDays d n).succD

def subDays (d : Date) : Nat → Date
  | 0 => d
  | n + 1 => (subDays d n).predD

/-- One sample record of `_get_sample_transactions` (no `bank` key). -/
def sampleTxn (base : Date) (offset : Nat) (description : String) (amount : DecAmt)
    (fa ty cat : String) : ETxn :=
  { date := formatISO (addDays base offset),
    formattedDate := formatDMonY (addDays base offset),
    description := description, amount := amount, formattedAmount := fa,
    type := ty, category := cat }

/-- `EnhancedPDFParser._get_sample_transactions`: five hardcoded records
whose dates are offsets from `datetime.now() - timedelta(days=30)`. -/
def sampleTransactions (now : Date) : List ETxn :=
  let base := subDays now 30
  [sampleTxn base 1 "SALARY CREDIT - COMPANY NAME" ⟨75000, 0⟩ "₹75,000.00"
     "credit" "salary",
   sampleTxn base 2 "UPI-SWIGGY-FOOD ORDER" ⟨450, 0⟩ "₹450.00" "debit"
     "food_dining",
   sampleTxn base 3 "ATM CASH WITHDRAWAL" ⟨10000, 0⟩ "₹10,000.00" "debit"
     "cash_withdrawal",
   sampleTxn base 5 "NEFT-RENT PAYMENT" ⟨25000, 0⟩ "₹25,000.00" "debit"
     "utilities",
   sampleTxn base 7 "ELECTRICITY BILL PAYMENT" ⟨1800, 0⟩ "₹1,800.00" "debit"
     "utilities"]

/-- Outcome of `EnhancedPDFParser.parse_pdf`, with flags recording whether
the Gemini fallback was invoked and whether the returned list is the
fabricated sample data. -/
structure EnhancedOutcome where
  result : List ETxn
  geminiCalled : Bool
  usedSamples : Bool
deriving Repr

/-- `EnhancedPDFParser.parse_pdf`.

Inputs: `pdfLibAvailable` is the `PDF_AVAILABLE` flag; `text` is what
`_extract_text_from_pdf` returned; `indianAvailable`/`indianParse` model the
optional `IndianBankParser` collaborator; `gemini` is `none` when
`self.gemini_parser` is `None`, otherwise the outcome of its network call
(`.error` for a raised exception, caught here); `now` is the current date,
read when the sample fallback builds its records.  The surrounding `try`
turns the line extractor's `UnboundLocalError` into the sample fallback. -/
def enhancedParsePdf (pdfLibAvailable : Bool) (text : String)
    (indianAvailable : Bool) (indianParse : String → List ETxn)
    (gemini : Option (Except Unit (List ETxn))) (now : Date) :
    EnhancedOutcome :=
  if ¬ pdfLibAvailable then ⟨sampleTransactions now, false, true⟩
  else if text = "" ∨ (pyStrip text).length < 100 then
    ⟨sampleTransactions now, false, true⟩
  else if (strContains text "Indian Bank" ∨ strContains text "ACCOUNT ACTIVITY")
      ∧ indianAvailable ∧ indianParse text ≠ [] then
    ⟨indianParse text, false, false⟩
  else
    match parseTransactionsFromText text with
    | .error _ => ⟨sampleTransactions now, false, true⟩
    | .ok txns =>
      if txns ≠ [] then ⟨txns, false, false⟩
      else
        match gemini with
        | none => ⟨sampleTransactions now, false, true⟩
        | some (.error _) => ⟨sampleTransactions now, true, true⟩
        | some (.ok g) =>
          if g ≠ [] then ⟨g, true, false⟩
          else ⟨sampleTransactions now, true, true⟩

/-! ### The Gemini validation loop (`gemini_pdf_parser.py`) -/

/-- One entry of the JSON array the model returned; `none` marks a missing
key.  Values are carried as strings; `amount` goes through `float`. -/
structure GRaw where
  date : Option String
  description : Option String
  amount : Option String
  type : Option String
  category : Option String

/-- A transaction dict as the Gemini validation loop builds it: the amount is
the Python float that `float` computed, which may be `nan` or an infinity. -/
structure GTxn where
  date : String
  formattedDate : String
  description : String
  amount : PFloat
  formattedAmount : String
  type : String
  category : String
  bank : Option String := none
deriving DecidableEq, Repr

/-- The validation/formatting loop of `GeminiPDFParser._extract_with_gemini`:
require all four keys, a `%Y-%m-%d` date, an amount whose `float` is not
`<= 0` — a check that a `nan` or `inf` amount also passes — and a type in
{credit, debit}; truncate the description, default the category to
`'others'`. -/
def geminiValidate (entries : List GRaw) : List GTxn :=
  entries.filterMap (fun txn =>
    match txn.date, txn.description, txn.amount, txn.type with
    | some ds, some desc, some amt, some ty =>
      match parseDateYmd ds with
      | none => none
      | some dateObj =>
        match pyFloat amt with
        | none => none
        | some amount =>
          if amount.leZero then none
          else if ty = "credit" ∨ ty = "debit" then
            some { date := formatISO dateObj,
                   formattedDate := formatDMonY dateObj,
                   description := pyTake desc 200,
                   amount := amount,
                   formattedAmount := formatAmountPF amount,
                   type := ty,
                   category := txn.category.getD "others",
                   bank := some "Extracted by AI" }
          else none
    | _, _, _, _ => none)

/-! ### Predicates and concrete inputs used by the verification -/

/-- A type tag the normalizer may emit. -/
def typeOk (s : String) : Prop := s = "credit" ∨ s = "debit"

/-- What every extractor guarantees before cleanup: a nonnegative amount and
a credit/debit tag. -/
def preTxnOk (t : Txn) : Prop := 0 ≤ t.amount.m ∧ typeOk t.type

/-- The final-result invariant of the specification: a present date, a
strictly positive amount, a credit/debit tag. -/
def txnValid (t : Txn) : Prop :=
  t.date.isSome = true ∧ 0 < t.amount.val ∧ typeOk t.type

/-- The category enumeration exactly as the specification words it
(closed set ending in `other`), for comparison with what the code returns. -/
def specCategories : List String :=
  ["food_dining", "groceries", "fuel", "utilities", "entertainment",
   "transportation", "shopping", "medical", "education", "investment",
   "transfer", "salary", "bank_charges", "cash_withdrawal", "other"]

/-- The categories the enhanced parser's if/elif chain can return. -/
def enhCategorySet : List String :=
  ["salary", "cash_withdrawal", "groceries", "fuel", "food_dining",
   "utilities", "medical", "shopping", "transfer", "loan", "others"]

/-- A well-formed record fed twice to the cleanup to witness that duplicates
survive. -/
def c4dupTxn : Txn :=
  { date := some ⟨2024, 1, 1⟩, description := "LUNCH", amount := ⟨5, 0⟩,
    type := "debit", bank := none }

/-- A line on which the advanced regex extractor fires; the parsed amount
tokens are 10, 02, 2024 and 450.00, of which `max` picks 2024. -/
def c7advLine : String := "10/02/2024 UPI-SWIGGY-FOOD ORDER 450.00"

/-- What the advanced regex extractor produces on `c7advLine`. -/
def c7advTxn : Txn :=
  { date := some ⟨2024, 2, 10⟩, description := c7advLine, amount := ⟨2024, 0⟩,
    type := "debit", bank := none }

/-- A line carrying two `INR` amounts, 100.00 before 500.00, on which the
enhanced line extractor fires (textual-month date, so no
`UnboundLocalError`). -/
def c7enhLine : String := "10 Oct 2025 PAYMENT INR 100.00 INR 500.00"

/-- What the enhanced line extractor produces on `c7enhLine`: the first
amount, not the largest. -/
def c7enhTxn : ETxn :=
  { date := "2025-10-10", formattedDate := "10 Oct 2025",
    description := "PAYMENT INR INR", amount := ⟨10000, 2⟩,
    formattedAmount := "₹100.00", type := "debit", category := "salary",
    bank := some "Indian Bank" }

/-- A table row dict with no description-like column: the extractor emits an
empty description. -/
def c8rows : List (String × String) :=
  [("Date", "01/01/2024"), ("Credit", "500"), ("Balance", "1000")]

/-- A 201-character line (date, space, 190 letters): the advanced regex
extractor stores the entire line as the description. -/
def c8longLine : String := "01/01/2024 " ++ ⟨List.replicate 190 'A'⟩

/-- What the advanced regex extractor produces on `c8longLine` (the amount
tokens are 01, 01, 2024). -/
def c8longTxn : Txn :=
  { date := some ⟨2024, 1, 1⟩, description := c8longLine, amount := ⟨2024, 0⟩,
    type := "debit", bank := none }

/-- A decoded page whose table yields one transaction, used to instantiate
the chain-order and invariant theorems. -/
def wPages : List PdfPage :=
  [{ text := some "HDFC BANK STATEMENT",
     tables := [[[some "Date", some "Description", some "Credit"],
                 [some "01/03/2024", some "Salary Credit", some "75000.00"]]] }]

/-- A camelot table with four labelled columns yielding one transaction. -/
def wCamDf : DF :=
  { cols := ["Date", "Description", "Debit", "Credit"],
    rows := [[some "02/03/2024", some "SHOP PURCHASE", none, some "700"]] }

/-- Decoded text with no extractable transaction, long enough to avoid the
sample-data length guard. -/
def wNoTxnText : String := ⟨List.replicate 120 'S'⟩

/-- Decoded text whose single line yields one transaction and which is long
enough to avoid the sample-data length guard. -/
def wGoodText : String :=
  "10 Oct 2025 PAYMENT PAYMENT PAYMENT PAYMENT PAYMENT PAYMENT PAYMENT " ++
  "PAYMENT PAYMENT PAYMENT PAYMENT INR 100.00"

/-- A line the enhanced extractor accepts, for the description-invariant
witness. -/
def c8wLine : String := "10 Oct 2025 REFUND PROCESSED INR 250.00"

/-- What the enhanced line extractor produces on `c8wLine`. -/
def c8wTxn : ETxn :=
  { date := "2025-10-10", formattedDate := "10 Oct 2025",
    description := "REFUND PROCESSED INR", amount := ⟨25000, 2⟩,
    formattedAmount := "₹250.00", type := "credit", category := "others",
    bank := some "Indian Bank" }

/-- A well-formed Gemini entry, for the description-truncation witness. -/
def c8gEntry : GRaw :=
  { date := some "2024-01-02", description := some "MODEL OUTPUT",
    amount := some "10", type := some "credit", category := none }

/-- What the Gemini validation loop makes of `c8gEntry`. -/
def c8gTxn : GTxn :=
  { date := "2024-01-02", formattedDate := "02 Jan 2024",
    description := "MODEL OUTPUT", amount := PFloat.fin ⟨10, 0⟩,
    formattedAmount := "₹10.00", type := "credit", category := "others",
    bank := some "Extracted by AI" }

/-- The transaction the advanced PDF path extracts from `wPages`. -/
def c3wTxn : Txn :=
  { date := some ⟨2024, 3, 1⟩, description := "Salary Credit",
    amount := ⟨7500000, 2⟩, type := "credit", bank := some "HDFC",
    category := "salary", month := "2024-03", formattedDate := "01/03/2024",
    formattedAmount := "₹75,000.00",
    rawData := [("Date", "01/03/2024"), ("Description", "Salary Credit"),
      ("Credit", "75000.00")] }

/-- A well-formed Gemini entry for the final-invariant witness. -/
def c3gEntry : GRaw :=
  { date := some "2024-05-06", description := some "AI ROW",
    amount := some "12.50", type := some "debit", category := none }

/-- What the Gemini validation loop makes of `c3gEntry`. -/
def c3gTxn : GTxn :=
  { date := "2024-05-06", formattedDate := "06 May 2024",
    description := "AI ROW", amount := PFloat.fin ⟨1250, 2⟩,
    formattedAmount := "₹12.50", type := "debit", category := "others",
    bank := some "Extracted by AI" }

/-- A Gemini entry whose amount field is the string `nan` — as `json.loads`
would also deliver for a bare `NaN` literal in the model response. -/
def c3nanEntry : GRaw :=
  { date := some "2024-05-06", description := some "AI NAN ROW",
    amount := some "nan", type := some "debit", category := none }

/-- The record the Gemini validation loop keeps for `c3nanEntry`: `nan <= 0`
is false, so the guard does not drop it. -/
def c3nanTxn : GTxn :=
  { date := "2024-05-06", formattedDate := "06 May 2024",
    description := "AI NAN ROW", amount := PFloat.nan,
    formattedAmount := "₹nan", type := "debit", category := "others",
    bank := some "Extracted by AI" }

/-- A Gemini result used to witness that the fallback chain reaches the AI
stage. -/
def wGeminiTxn : ETxn :=
  { date := "2024-01-05", formattedDate := "05 Jan 2024",
    description := "AI EXTRACTED", amount := ⟨10, 0⟩, formattedAmount := "₹10.00",
    type := "credit", category := "others", bank := some "Extracted by AI" }

/-! ## Theorems -/

/-! ### Lemmas about the embedded primitives -/

theorem mkValidDate_valid {y m d : Nat} {dt : Date}
    (h : mkValidDate y m d = some dt) : ValidDate dt := by
  unfold mkValidDate at h
  split at h
  · cases h; exact ‹_›
  · cases h

theorem decAmt_pow_pos (e : Nat) : (0 : ℚ) < (10 : ℚ) ^ e :=
  pow_pos (by norm_num) e

theorem DecAmt.val_nonneg {a : DecAmt} (h : 0 ≤ a.m) : 0 ≤ a.val :=
  div_nonneg (by exact_mod_cast h) (le_of_lt (decAmt_pow_pos a.e))

theorem DecAmt.val_pos {a : DecAmt} (h : 0 < a.m) : 0 < a.val :=
  div_pos (by exact_mod_cast h) (decAmt_pow_pos a.e)

theorem DecAmt.val_pos_of_truthy {a : DecAmt} (h0 : 0 ≤ a.m)
    (h : a.truthy = true) : 0 < a.val := by
  have : a.m ≠ 0 := by simpa [DecAmt.truthy] using h
  exact DecAmt.val_pos (lt_of_le_of_ne h0 (Ne.symm this))

theorem DecAmt.le_iff_val {a b : DecAmt} : DecAmt.le a b ↔ a.val ≤ b.val := by
  unfold DecAmt.le DecAmt.val
  rw [div_le_div_iff (decAmt_pow_pos a.e) (decAmt_pow_pos b.e)]
  constructor
  · intro h; exact_mod_cast h
  · intro h; exact_mod_cast h

theorem DecAmt.lt_iff_val {a b : DecAmt} : DecAmt.lt a b ↔ a.val < b.val := by
  unfold DecAmt.lt DecAmt.val
  rw [div_lt_div_iff (decAmt_pow_pos a.e) (decAmt_pow_pos b.e)]
  constructor
  · intro h; exact_mod_cast h
  · intro h; exact_mod_cast h

theorem DecAmt.listMax_mem (a : DecAmt) (rest : List DecAmt) :
    DecAmt.listMax a rest ∈ a :: rest := by
  unfold DecAmt.listMax
  induction rest generalizing a with
  | nil => simp
  | cons x xs ih =>
    rw [List.foldl_cons]
    have h := ih (if DecAmt.lt a x then x else a)
    by_cases hc : DecAmt.lt a x
    · rw [if_pos hc] at h ⊢
      rcases List.mem_cons.mp h with h' | h'
      · rw [h']; exact List.mem_cons_of_mem _ (List.mem_cons_self _ _)
      · exact List.mem_cons_of_mem _ (List.mem_cons_of_mem _ h')
    · rw [if_neg hc] at h ⊢
      rcases List.mem_cons.mp h with h' | h'
      · rw [h']; exact List.mem_cons_self _ _
      · exact List.mem_cons_of_mem _ (List.mem_cons_of_mem _ h')

theorem DecAmt.val_le_step (a x : DecAmt) :
    a.val ≤ (if DecAmt.lt a x then x else a).val := by
  by_cases hc : DecAmt.lt a x
  · rw [if_pos hc]; exact le_of_lt (DecAmt.lt_iff_val.mp hc)
  · rw [if_neg hc]

theorem DecAmt.snd_le_step (a x : DecAmt) :
    x.val ≤ (if DecAmt.lt a x then x else a).val := by
  by_cases hc : DecAmt.lt a x
  · rw [if_pos hc]
  · rw [if_neg hc]
    exact le_of_not_lt (fun hv => hc (DecAmt.lt_iff_val.mpr hv))

theorem DecAmt.init_le_listMax (a : DecAmt) (rest : List DecAmt) :
    a.val ≤ (DecAmt.listMax a rest).val := by
  unfold DecAmt.listMax
  induction rest generalizing a with
  | nil => exact le_refl _
  | cons x xs ih =>
    rw [List.foldl_cons]
    exact le_trans (DecAmt.val_le_step a x) (ih _)

theorem DecAmt.mem_le_listMax (y : DecAmt) :
    ∀ (l : List DecAmt) (a : DecAmt), y ∈ l →
      y.val ≤ (DecAmt.listMax a l).val
  | [], _, h => absurd h (List.not_mem_nil y)
  | x :: xs, a, h => by
    unfold DecAmt.listMax
    rw [List.foldl_cons]
    rcases List.mem_cons.mp h with rfl | h'
    · exact le_trans (DecAmt.snd_le_step a y) (DecAmt.init_le_listMax _ xs)
    · exact DecAmt.mem_le_listMax y xs _ h'

theorem DecAmt.le_listMax (a : DecAmt) (rest : List DecAmt) :
    ∀ x ∈ a :: rest, x.val ≤ (DecAmt.listMax a rest).val := by
  intro y hy
  rcases List.mem_cons.mp hy with rfl | hy'
  · exact DecAmt.init_le_listMax y rest
  · exact DecAmt.mem_le_listMax y rest a hy'

theorem DecAmt.listMax_nonneg {a : DecAmt} {rest : List DecAmt}
    (h : ∀ x ∈ a :: rest, 0 ≤ x.m) : 0 ≤ (DecAmt.listMax a rest).m :=
  h _ (DecAmt.listMax_mem a rest)

theorem floatOfCleaned_nonneg {s : String} {q : DecAmt}
    (h : floatOfCleaned s = some q) : 0 ≤ q.m := by
  simp only [floatOfCleaned] at h
  split at h
  · cases h; exact Int.ofNat_nonneg _
  · cases h

theorem strptime_valid {fmt : List FmtTok} {s : String} {d : Date}
    (h : strptime fmt s = some d) : ValidDate d := by
  unfold strptime at h
  split at h
  · split at h
    · exact mkValidDate_valid h
    · cases h
  · cases h

theorem strptimeFirst_valid {fmts : List (List FmtTok)} {s : String} {d : Date}
    (h : strptimeFirst fmts s = some d) : ValidDate d := by
  unfold strptimeFirst at h
  induction fmts with
  | nil => cases h
  | cons f rest ih =>
    rw [List.findSome?_cons] at h
    cases hf : strptime f s with
    | some d' => rw [hf] at h; cases h; exact strptime_valid hf
    | none => rw [hf] at h; exact ih h


/-! ### Helper lemmas -/

theorem map_id_of_mem {α : Type} (f : α → α) :
    ∀ l : List α, (∀ x ∈ l, f x = x) → l.map f = l
  | [], _ => rfl
  | x :: rest, h => by
    rw [List.map_cons, h x (List.mem_cons_self x rest),
      map_id_of_mem f rest (fun y hy => h y (List.mem_cons_of_mem x hy))]

theorem cleanUpdate_idem (t : Txn) : cleanUpdate (cleanUpdate t) = cleanUpdate t := rfl

theorem goodTxn_cleanUpdate (t : Txn) : goodTxn (cleanUpdate t) = goodTxn t := rfl

theorem mem_cleanAndCategorize {t : Txn} {l : List Txn}
    (h : t ∈ cleanAndCategorize l) :
    ∃ s ∈ l, goodTxn s = true ∧ t = cleanUpdate s := by
  unfold cleanAndCategorize at h
  rw [List.mem_insertionSort] at h
  obtain ⟨s, hs, rfl⟩ := List.mem_map.mp h
  exact ⟨s, (List.mem_filter.mp hs).1, (List.mem_filter.mp hs).2, rfl⟩

theorem cleanAndCategorize_idem (l : List Txn) :
    cleanAndCategorize (cleanAndCategorize l) = cleanAndCategorize l := by
  have hfilter : (cleanAndCategorize l).filter goodTxn = cleanAndCategorize l := by
    rw [List.filter_eq_self]
    intro t ht
    obtain ⟨s, _, hg, rfl⟩ := mem_cleanAndCategorize ht
    rw [goodTxn_cleanUpdate]; exact hg
  have hmap : (cleanAndCategorize l).map cleanUpdate = cleanAndCategorize l := by
    apply map_id_of_mem
    intro t ht
    obtain ⟨s, _, _, rfl⟩ := mem_cleanAndCategorize ht
    exact cleanUpdate_idem s
  conv_lhs => rw [cleanAndCategorize, hfilter, hmap]
  exact (List.sorted_insertionSort txnGe _).insertionSort_eq

theorem cleanAndCategorize_length (l : List Txn) :
    (cleanAndCategorize l).length = (l.filter goodTxn).length := by
  unfold cleanAndCategorize
  rw [(List.perm_insertionSort txnGe _).length_eq, List.length_map]

/-! ### C4 -/

/-- C4 counterexample: the cleanup stage performs no deduplication — feeding
it two records identical in every field (hence with equal
(date, amount, description, type) keys) yields a two-element list, where the
claim requires the exact duplicate to be removed. -/
theorem c4_dedup_counterexample :
    (cleanAndCategorize [c4dupTxn, c4dupTxn]).length = 2 ∧
    (cleanAndCategorize [c4dupTxn, c4dupTxn]).get? 0 =
      (cleanAndCategorize [c4dupTxn, c4dupTxn]).get? 1 := by decide

/-- C4 amended: the pipeline's final cleanup does not deduplicate — every
record passing the truthiness filter is kept, duplicates included — but the
cleanup is idempotent: reapplying it to its own output returns the same
list. -/
theorem c4_clean_no_dedup_but_idempotent :
    (∀ l : List Txn,
        cleanAndCategorize (cleanAndCategorize l) = cleanAndCategorize l) ∧
    (∀ l : List Txn,
        (cleanAndCategorize l).length = (l.filter goodTxn).length) :=
  ⟨cleanAndCategorize_idem, cleanAndCategorize_length⟩

/-! ### C9 -/

/-- C9: every list the advanced parser's cleanup stage returns is sorted by
date, newest first (pairwise, each record's date is ≥ the next one's),
whatever order the extraction strategies emitted the records in. -/
theorem c9_clean_output_sorted_newest_first (l : List Txn) :
    List.Sorted txnGe (cleanAndCategorize l) :=
  List.sorted_insertionSort txnGe _

/-! ### C6 -/

theorem firstMatchCat_mem (txt : List Char) :
    ∀ l : List (String × List (List String)),
      firstMatchCat txt l = "others" ∨ firstMatchCat txt l ∈ l.map Prod.fst
  | [] => Or.inl rfl
  | ⟨qc, qa⟩ :: rest => by
    by_cases h : searchAlts qa txt
    · right; simp [firstMatchCat, h]
    · rcases firstMatchCat_mem txt rest with h' | h'
      · left; simpa [firstMatchCat, h] using h'
      · right
        simp only [firstMatchCat, h, if_false, List.map_cons]
        exact List.mem_cons_of_mem _ h'

theorem firstMatchCat_append (txt : List Char) :
    ∀ (pre : List (String × List (List String))) (c : String)
      (alts : List (List String)) (post : List (String × List (List String))),
      (∀ q ∈ pre, searchAlts q.2 txt = false) → searchAlts alts txt = true →
      firstMatchCat txt (pre ++ (c, alts) :: post) = c
  | [], c, alts, post, _, hc => by simp [firstMatchCat, hc]
  | ⟨qc, qa⟩ :: rest, c, alts, post, hpre, hc => by
    have hq : searchAlts qa txt = false := hpre ⟨qc, qa⟩ (List.mem_cons_self _ _)
    have ih := firstMatchCat_append txt rest c alts post
      (fun q hqm => hpre q (List.mem_cons_of_mem _ hqm)) hc
    simpa [firstMatchCat, hq] using ih

/-- C6 counterexample: the advanced categorizer returns `"others"` — not the
claimed `"other"` — when nothing else matches (its catch-all `.*` entry is
named `others`), and the enhanced categorizer can return `"loan"`; neither
value is in the claimed fixed category set. -/
theorem c6_category_set_counterexample :
    advCategorize "MISC ITEM" = "others" ∧
    enhCategorize "LOAN EMI" = "loan" ∧
    "others" ∉ specCategories ∧ "loan" ∉ specCategories := by
  refine ⟨by decide, by decide, by decide, by decide⟩

set_option maxHeartbeats 1600000 in
/-- C6 amended: the categorizer tests its ordered (category, pattern) list
and returns the first matching category; every value the advanced categorizer
returns is a key of its pattern table (whose no-match/catch-all result is
`others`, not `other`), and every value the enhanced categorizer returns lies
in its own closed set, which additionally contains `loan`. -/
theorem c6_categorizer_amended :
    (∀ d : String, advCategorize d ∈ CATEGORY_PATTERNS.map Prod.fst) ∧
    (∀ d : String, enhCategorize d ∈ enhCategorySet) ∧
    (∀ (d : String) (pre : List (String × List (List String))) (c : String)
        (alts : List (List String))
        (post : List (String × List (List String))),
       CATEGORY_PATTERNS = pre ++ (c, alts) :: post →
       (∀ q ∈ pre, searchAlts q.2 (pyUpper d).data = false) →
       searchAlts alts (pyUpper d).data = true →
       advCategorize d = c) := by
  refine ⟨?_, ?_, ?_⟩
  · intro d
    rcases firstMatchCat_mem (pyUpper d).data CATEGORY_PATTERNS with h | h
    · rw [advCategorize, h]; decide
    · exact h
  · intro d
    simp only [enhCategorize]
    split_ifs <;> decide
  · intro d pre c alts post hsplit hpre hc
    rw [advCategorize, hsplit]
    exact firstMatchCat_append _ pre c alts post hpre hc

/-- C6 witness: the amended theorem, instantiated — first-match-wins on a
description matching the first pattern, and concrete memberships. -/
theorem c6_categorizer_amended_witness :
    advCategorize "POS SWIGGY BANGALORE" ∈ CATEGORY_PATTERNS.map Prod.fst ∧
    enhCategorize "POS SWIGGY BANGALORE" ∈ enhCategorySet ∧
    advCategorize "POS SWIGGY BANGALORE" = "food_dining" :=
  ⟨c6_categorizer_amended.1 _,
   c6_categorizer_amended.2.1 _,
   c6_categorizer_amended.2.2 "POS SWIGGY BANGALORE" [] "food_dining" _ _
     rfl (fun q hq => absurd hq (List.not_mem_nil q)) (by decide)⟩

/-! ### C7 -/

/-- C7 counterexample: on `c7enhLine` the enhanced line extractor emits the
first parsed amount (100.00) although a larger amount (500.00) also parses on
the line, so the emitted amount is not the largest. -/
theorem c7_largest_amount_counterexample :
    extractTransactionFromLine c7enhLine = Except.ok (some c7enhTxn) ∧
    (⟨50000, 2⟩ : DecAmt) ∈ enhLineAmounts c7enhLine ∧
    c7enhTxn.amount.val < (⟨50000, 2⟩ : DecAmt).val := by
  refine ⟨by decide, by decide, DecAmt.lt_iff_val.mp (by decide)⟩

/-- C7 amended: the advanced parser's regex extractor emits the largest
parsed amount on the line, but the enhanced parser's line extractor emits the
first parsed amount (the free OCR parser, not modelled here, takes the
last). -/
theorem c7_amount_choice_amended :
    (∀ (line : String) (bank : Option String) (t : Txn),
        regexLineTxn line bank = some t →
        t.amount ∈ advLineAmounts line ∧
          ∀ a ∈ advLineAmounts line, a.val ≤ t.amount.val) ∧
    (∀ (line : String) (t : ETxn),
        extractTransactionFromLine line = Except.ok (some t) →
        ∃ rest, enhLineAmounts line = t.amount :: rest) := by
  constructor
  · intro line bank t h
    unfold regexLineTxn at h
    split at h
    · cases h
    · split at h
      · cases h
      · split at h
        · cases h
        · split at h
          · cases h
          · rename_i amts a rest heq
            cases h
            constructor
            · rw [heq]; exact DecAmt.listMax_mem a rest
            · rw [heq]; exact DecAmt.le_listMax a rest
  · intro line t h
    simp only [extractTransactionFromLine] at h
    split at h
    · cases h
    · split at h
      · cases h
      · split at h
        · cases h
        · split at h
          · cases h
          · split at h <;>
              (rw [Except.ok.injEq, Option.some.injEq] at h
               subst h
               rename_i hAmts hNum hDesc
               exact ⟨_, hAmts⟩)

/-- C7 witness: the amended theorem at concrete lines. -/
theorem c7_amount_choice_amended_witness :
    (c7advTxn.amount ∈ advLineAmounts c7advLine ∧
      ∀ a ∈ advLineAmounts c7advLine, a.val ≤ c7advTxn.amount.val) ∧
    (∃ rest, enhLineAmounts c7enhLine = c7enhTxn.amount :: rest) :=
  ⟨c7_amount_choice_amended.1 c7advLine none c7advTxn (by decide),
   c7_amount_choice_amended.2 c7enhLine c7enhTxn (by decide)⟩

/-! ### C8 -/

theorem pyTake_length_le (s : String) (n : Nat) : (pyTake s n).length ≤ n := by
  have h : (pyTake s n).length = (s.data.take n).length := rfl
  rw [h, List.length_take]
  exact min_le_left _ _

theorem pyTake_ne_empty {s : String} {n : Nat} (hs : s.data ≠ []) (hn : n ≠ 0) :
    pyTake s n ≠ "" := by
  intro he
  have h2 : s.data.take n = [] := congrArg String.data he
  rcases List.take_eq_nil_iff.mp h2 with h | h
  · exact hn h
  · exact hs h

theorem str_data_ne {s : String} (hs : s ≠ "") : s.data ≠ [] :=
  fun h => hs (String.ext h)

set_option maxRecDepth 8192 in
set_option maxHeartbeats 1600000 in
/-- C8 counterexample: the advanced parser's dict extractor emits a
transaction with an empty description (a row with date and credit columns but
no description-like column), and its regex extractor stores the entire
201-character line as the description — both violating the claimed
nonemptiness and 200-character bound. -/
theorem c8_description_counterexample :
    (extractTransactionFromDict c8rows none).map Txn.description = some "" ∧
    regexLineTxn c8longLine none = some c8longTxn ∧
    200 < c8longTxn.description.length := by
  refine ⟨by decide, by decide, by decide⟩

/-- C8 amended: the enhanced parser's line extractor does guarantee the
claimed description invariant — at most 200 characters, never empty, with the
synthesized "<Type> Transaction" label substituted when stripping leaves
fewer than three characters — and the Gemini validation loop truncates to 200
characters (but has no nonemptiness fallback); the advanced parser's
extractors enforce neither bound. -/
theorem c8_description_amended :
    (∀ (line : String) (t : ETxn),
        extractTransactionFromLine line = Except.ok (some t) →
        t.description.length ≤ 200 ∧ t.description ≠ "") ∧
    (∀ (entries : List GRaw) (t : GTxn), t ∈ geminiValidate entries →
        t.description.length ≤ 200) := by
  constructor
  · intro line t h
    simp only [extractTransactionFromLine] at h
    split at h
    · cases h
    · split at h
      · cases h
      · split at h
        · cases h
        · split at h
          · cases h
          · split at h
            · -- description shorter than three characters: synthesized label
              rw [Except.ok.injEq, Option.some.injEq] at h
              subst h
              by_cases hc :
                (if ¬credit_keywords.any (strContains (pyLower line)) = true ∧
                      ¬debit_keywords.any (strContains (pyLower line)) = true then
                    !searchSignINR '-' line.data && searchSignINR '+' line.data
                  else credit_keywords.any (strContains (pyLower line))) = true
              · simp only [hc, if_pos]
                exact ⟨by decide, by decide⟩
              · simp only [hc, if_neg, if_false]
                exact ⟨by decide, by decide⟩
            · -- stripped description kept
              rw [Except.ok.injEq, Option.some.injEq] at h
              subst h
              rename_i hAmts hNum hDesc
              push_neg at hDesc
              refine ⟨pyTake_length_le _ _, ?_⟩
              exact pyTake_ne_empty (str_data_ne hDesc.1) (by decide)
  · intro entries t h
    rw [geminiValidate, List.mem_filterMap] at h
    obtain ⟨entry, _, hsome⟩ := h
    split at hsome
    · split at hsome
      · cases hsome
      · split at hsome
        · cases hsome
        · split at hsome
          · cases hsome
          · split at hsome
            · rw [Option.some.injEq] at hsome
              subst hsome
              exact pyTake_length_le _ _
            · cases hsome
    · cases hsome

/-- C8 witness: the amended theorem at a concrete accepted line and a
concrete validated Gemini entry. -/
theorem c8_description_amended_witness :
    (c8wTxn.description.length ≤ 200 ∧ c8wTxn.description ≠ "") ∧
    c8gTxn.description.length ≤ 200 :=
  ⟨c8_description_amended.1 c8wLine c8wTxn (by decide),
   c8_description_amended.2 [c8gEntry] c8gTxn (by decide)⟩

/-! ### C1 -/

/-- C1 counterexample: on an empty decoded text — every strategy extracts
zero transactions and no AI collaborator is configured — the enhanced PDF
parser returns a nonempty list: the five fabricated sample records, where the
claim requires an empty list. -/
theorem c1_fabrication_counterexample :
    (enhancedParsePdf true "" false (fun _ => []) none ⟨2024, 1, 1⟩).result ≠ [] := by
  decide

/-- C1 amended: the advanced parser never fabricates — when every strategy in
its chain returns zero transactions, the returned transaction list is empty —
but the enhanced PDF parser fabricates: whenever it falls back, it returns
the five hardcoded sample records (built from the current date, not from the
file), and that list is never empty. -/
theorem c1_no_fabrication_amended :
    (∀ (pages : List PdfPage) (camIn : Except String (List DF))
        (ocrIn : Except String (List String)),
        parsePdfWithPdfplumber pages = [] →
        parsePdfWithCamelot camIn = [] →
        parsePdfWithOcr ocrIn = [] →
        (parsePdfStatement (.ok pages) camIn ocrIn).transactions = []) ∧
    (∀ pa text ia ip g now,
        (enhancedParsePdf pa text ia ip g now).usedSamples = true →
        (enhancedParsePdf pa text ia ip g now).result = sampleTransactions now) ∧
    (∀ now : Date, sampleTransactions now ≠ []) := by
  refine ⟨?_, ?_, ?_⟩
  · intro pages camIn ocrIn h1 h2 h3
    simp [parsePdfStatement, h1, h2, h3]
  · intro pa text ia ip g now
    unfold enhancedParsePdf
    repeat' split
    all_goals intro h
    all_goals first | rfl | simp at h
  · intro now h
    exact List.noConfusion h

/-- C1 witness: the amended theorem at concrete inputs — an all-empty
advanced chain yields an empty list, while the enhanced parser on empty text
yields the (nonempty) samples. -/
theorem c1_no_fabrication_amended_witness :
    (parsePdfStatement (.ok []) (.error "camelot failed")
        (.error "ocr failed")).transactions = [] ∧
    (enhancedParsePdf true "" false (fun _ => []) none ⟨2024, 6, 1⟩).result =
      sampleTransactions ⟨2024, 6, 1⟩ ∧
    sampleTransactions ⟨2024, 6, 1⟩ ≠ [] :=
  ⟨c1_no_fabrication_amended.1 [] _ _ (by decide) (by decide) (by decide),
   c1_no_fabrication_amended.2.1 true "" false (fun _ => []) none ⟨2024, 6, 1⟩
     (by decide),
   c1_no_fabrication_amended.2.2 ⟨2024, 6, 1⟩⟩

/-! ### C2 -/

/-- C2: the fallback chain invokes each later strategy only when every
earlier one returned zero transactions: camelot and OCR never influence the
advanced result while pdfplumber's is nonempty (and OCR never influences it
while camelot's is nonempty); within the pdfplumber pass the regex
line-pattern extractor is bypassed whenever table extraction produced
records; and the enhanced parser calls the Gemini AI extractor only when its
own text parse returned zero transactions. -/
theorem c2_fallback_chain_guards :
    (∀ (pages : List PdfPage) (camIn camIn' : Except String (List DF))
        (ocrIn ocrIn' : Except String (List String)),
        parsePdfWithPdfplumber pages ≠ [] →
        parsePdfStatement (.ok pages) camIn ocrIn =
          parsePdfStatement (.ok pages) camIn' ocrIn' ∧
        (parsePdfStatement (.ok pages) camIn ocrIn).transactions =
          parsePdfWithPdfplumber pages) ∧
    (∀ (pages : List PdfPage) (camIn : Except String (List DF))
        (ocrIn ocrIn' : Except String (List String)),
        parsePdfWithPdfplumber pages = [] →
        parsePdfWithCamelot camIn ≠ [] →
        parsePdfStatement (.ok pages) camIn ocrIn =
          parsePdfStatement (.ok pages) camIn ocrIn' ∧
        (parsePdfStatement (.ok pages) camIn ocrIn).transactions =
          parsePdfWithCamelot camIn) ∧
    (∀ pages : List PdfPage,
        (pdfplumberScan pages).2.2 ≠ [] →
        parsePdfWithPdfplumber pages =
          cleanAndCategorize (pdfplumberScan pages).2.2) ∧
    (∀ pa text ia ip g now,
        (enhancedParsePdf pa text ia ip g now).geminiCalled = true →
        parseTransactionsFromText text = Except.ok []) := by
  refine ⟨?_, ?_, ?_, ?_⟩
  · intro pages camIn camIn' ocrIn ocrIn' h1
    constructor <;> simp [parsePdfStatement, h1]
  · intro pages camIn ocrIn ocrIn' h1 h2
    constructor <;> simp [parsePdfStatement, h1, h2]
  · intro pages h
    simp [parsePdfWithPdfplumber, h]
  · intro pa text ia ip g now
    unfold enhancedParsePdf
    repeat' split
    all_goals intro h
    all_goals simp_all

/-- C2 witness: the guard theorems at concrete inputs for each stage of the
chain. -/
theorem c2_fallback_chain_guards_witness :
    (parsePdfStatement (.ok wPages) (.error "a") (.error "b") =
        parsePdfStatement (.ok wPages) (.ok []) (.ok []) ∧
      (parsePdfStatement (.ok wPages) (.error "a") (.error "b")).transactions =
        parsePdfWithPdfplumber wPages) ∧
    (parsePdfStatement (.ok []) (.ok [wCamDf]) (.error "b") =
        parsePdfStatement (.ok []) (.ok [wCamDf]) (.ok []) ∧
      (parsePdfStatement (.ok []) (.ok [wCamDf]) (.error "b")).transactions =
        parsePdfWithCamelot (.ok [wCamDf])) ∧
    parsePdfWithPdfplumber wPages =
      cleanAndCategorize (pdfplumberScan wPages).2.2 ∧
    parseTransactionsFromText wNoTxnText = Except.ok [] :=
  ⟨c2_fallback_chain_guards.1 wPages _ _ _ _ (by decide),
   c2_fallback_chain_guards.2.1 [] _ _ _ (by decide) (by decide),
   c2_fallback_chain_guards.2.2.1 wPages (by decide),
   c2_fallback_chain_guards.2.2.2 true wNoTxnText false (fun _ => [])
     (some (.ok [wGeminiTxn])) ⟨2024, 1, 1⟩ (by decide)⟩

/-! ### C5 -/

/-- C5 counterexample: the same (empty) file content parsed at two different
times yields different transaction lists — the sample-data fallback derives
its dates from the current date — so the output does not depend only on the
file content. -/
theorem c5_determinism_counterexample :
    (enhancedParsePdf true "" false (fun _ => []) none ⟨2024, 3, 15⟩).result.map
        ETxn.date ≠
      (enhancedParsePdf true "" false (fun _ => []) none
          ⟨2024, 3, 16⟩).result.map ETxn.date := by
  decide

/-- C5 amended: which branch the enhanced parser takes (sample fallback,
Gemini call) depends only on the decoded content and collaborator results,
never on the clock; and whenever the sample fallback is not taken, the
returned list is independent of the current date.  Only the fabricated
sample records depend on the clock. -/
theorem c5_determinism_amended :
    (∀ pa text ia ip g (now now' : Date),
        (enhancedParsePdf pa text ia ip g now).usedSamples =
          (enhancedParsePdf pa text ia ip g now').usedSamples ∧
        (enhancedParsePdf pa text ia ip g now).geminiCalled =
          (enhancedParsePdf pa text ia ip g now').geminiCalled) ∧
    (∀ pa text ia ip g (now now' : Date),
        (enhancedParsePdf pa text ia ip g now).usedSamples = false →
        (enhancedParsePdf pa text ia ip g now).result =
          (enhancedParsePdf pa text ia ip g now').result) := by
  constructor
  · intro pa text ia ip g now now'
    unfold enhancedParsePdf
    repeat' split
    all_goals exact ⟨rfl, rfl⟩
  · intro pa text ia ip g now now'
    unfold enhancedParsePdf
    repeat' split
    all_goals intro h
    all_goals simp_all

/-- C5 witness: on content whose line parse succeeds, the result is the same
at two different dates. -/
theorem c5_determinism_amended_witness :
    (enhancedParsePdf true wGoodText false (fun _ => []) none
        ⟨2024, 3, 15⟩).result =
      (enhancedParsePdf true wGoodText false (fun _ => []) none
          ⟨2025, 7, 4⟩).result :=
  c5_determinism_amended.2 true wGoodText false (fun _ => []) none
    ⟨2024, 3, 15⟩ ⟨2025, 7, 4⟩ (by decide)

/-! ### C10 -/

theorem parsePdfStatement_error_empty (pdfIn : Except String (List PdfPage))
    (camIn : Except String (List DF)) (ocrIn : Except String (List String))
    (h : (parsePdfStatement pdfIn camIn ocrIn).error.isSome = true) :
    (parsePdfStatement pdfIn camIn ocrIn).transactions = [] := by
  unfold parsePdfStatement at h ⊢
  cases pdfIn with
  | error e => rfl
  | ok pages =>
    dsimp only at h ⊢
    split_ifs at h ⊢ <;> simp_all

theorem parseCsvStatement_error_empty (read : CsvIn)
    (h : (parseCsvStatement read).error.isSome = true) :
    (parseCsvStatement read).transactions = [] := by
  cases read <;> simp_all [parseCsvStatement]

theorem parseExcelGo_error_empty :
    ∀ sheets : List (String × DF),
      (parseExcelStatement.go sheets).error.isSome = true →
      (parseExcelStatement.go sheets).transactions = []
  | [] => fun _ => rfl
  | (name, df) :: rest => fun h => by
    unfold parseExcelStatement.go at h ⊢
    dsimp only at h ⊢
    split_ifs at h ⊢ <;>
      first
        | simp at h
        | exact parseExcelGo_error_empty rest h

theorem parseExcelStatement_error_empty
    (read : Except String (List (String × DF)))
    (h : (parseExcelStatement read).error.isSome = true) :
    (parseExcelStatement read).transactions = [] := by
  cases read with
  | error m => rfl
  | ok sheets => exact parseExcelGo_error_empty sheets h

theorem parseImageStatement_error_empty (read : Except String String)
    (h : (parseImageStatement read).error.isSome = true) :
    (parseImageStatement read).transactions = [] := by
  cases read <;> simp_all [parseImageStatement]

/-- C10: `parse_statement` is total — every input yields a result dict with a
transactions field — an unsupported extension yields exactly
`{'error': 'Unsupported file format: <ext>', 'transactions': []}`, and
whenever any branch reports an error the transaction list is empty. -/
theorem c10_parse_statement_total :
    (∀ suffix pdfIn camIn ocrIn csvIn excelIn imgIn,
        pyLower suffix ∉ ([".pdf", ".csv", ".xlsx", ".xls", ".jpg", ".jpeg",
          ".png", ".tiff"] : List String) →
        parse_statement suffix pdfIn camIn ocrIn csvIn excelIn imgIn =
          { transactions := [],
            error := some ("Unsupported file format: " ++ pyLower suffix) }) ∧
    (∀ suffix pdfIn camIn ocrIn csvIn excelIn imgIn,
        (parse_statement suffix pdfIn camIn ocrIn csvIn excelIn
            imgIn).error.isSome = true →
        (parse_statement suffix pdfIn camIn ocrIn csvIn excelIn
            imgIn).transactions = []) := by
  constructor
  · intro suffix pdfIn camIn ocrIn csvIn excelIn imgIn h
    simp only [List.mem_cons, List.not_mem_nil, or_false, not_or] at h
    obtain ⟨h1, h2, h3, h4, h5, h6, h7, h8⟩ := h
    simp [parse_statement, h1, h2, h3, h4, h5, h6, h7, h8]
  · intro suffix pdfIn camIn ocrIn csvIn excelIn imgIn h
    unfold parse_statement at h ⊢
    dsimp only at h ⊢
    split_ifs at h ⊢
    · exact parsePdfStatement_error_empty _ _ _ h
    · exact parseCsvStatement_error_empty _ h
    · exact parseExcelStatement_error_empty _ h
    · exact parseImageStatement_error_empty _ h
    · rfl

/-- C10 witness: an unsupported extension and a failing CSV read, at concrete
inputs. -/
theorem c10_parse_statement_total_witness :
    parse_statement ".TXT" (.error "p") (.error "c") (.error "o")
        (.raised "boom") (.error "e") (.error "i") =
      { transactions := [],
        error := some ("Unsupported file format: " ++ pyLower ".TXT") } ∧
    (parse_statement ".csv" (.error "p") (.error "c") (.error "o")
        (.raised "boom") (.error "e") (.error "i")).transactions = [] :=
  ⟨c10_parse_statement_total.1 ".TXT" _ _ _ _ _ _ (by decide),
   c10_parse_statement_total.2 ".csv" _ _ _ (.raised "boom") _ _ (by decide)⟩

/-! ### C3 -/

theorem extractDict_valid {rows : List (String × String)} {bank : Option String}
    {t : Txn} (h : extractTransactionFromDict rows bank = some t) :
    t.date.isSome = true ∧ 0 < t.amount.m ∧ typeOk t.type := by
  unfold extractTransactionFromDict at h
  dsimp only at h
  split at h
  · cases h
  · split at h
    · split at h
      · rename_i hc
        cases h
        exact ⟨rfl, by simpa [DecAmt.posB] using hc, Or.inl rfl⟩
      · split at h
        · split at h
          · rename_i hd
            cases h
            exact ⟨rfl, by simpa [DecAmt.posB] using hd, Or.inr rfl⟩
          · cases h
        · cases h
    · split at h
      · split at h
        · rename_i hd
          cases h
          exact ⟨rfl, by simpa [DecAmt.posB] using hd, Or.inr rfl⟩
        · cases h
      · cases h

theorem advLineAmounts_nonneg (line : String) :
    ∀ x ∈ advLineAmounts line, 0 ≤ x.m := by
  intro x hx
  rw [advLineAmounts, List.mem_filterMap] at hx
  obtain ⟨tok, _, htok⟩ := hx
  unfold advAmountOfToken at htok
  dsimp only at htok
  split at htok
  · exact floatOfCleaned_nonneg htok
  · cases htok

theorem regexLine_pre {line : String} {bank : Option String} {t : Txn}
    (h : regexLineTxn line bank = some t) :
    0 ≤ t.amount.m ∧ typeOk t.type := by
  unfold regexLineTxn at h
  split at h
  · cases h
  · split at h
    · cases h
    · split at h
      · cases h
      · split at h
        · cases h
        · rename_i a rest heq
          split at h <;>
            (rw [Option.some.injEq] at h; subst h) <;>
            refine ⟨DecAmt.listMax_nonneg (fun x hx => ?_), ?_⟩
          · rw [← heq] at hx; exact advLineAmounts_nonneg line x hx
          · exact Or.inl rfl
          · rw [← heq] at hx; exact advLineAmounts_nonneg line x hx
          · exact Or.inr rfl

theorem parseTextWithRegex_pre (text : String) (bank : Option String) :
    ∀ t ∈ parseTextWithRegex text bank, 0 ≤ t.amount.m ∧ typeOk t.type := by
  intro t ht
  rw [parseTextWithRegex, List.mem_filterMap] at ht
  obtain ⟨l, _, hl⟩ := ht
  exact regexLine_pre hl

theorem processTableData_pre (table : List (List (Option String)))
    (bank : Option String) :
    ∀ t ∈ processTableData table bank, 0 ≤ t.amount.m ∧ typeOk t.type := by
  intro t ht
  unfold processTableData at ht
  split at ht
  · cases ht
  · rw [List.mem_filterMap] at ht
    obtain ⟨row, _, hrow⟩ := ht
    split at hrow
    · have := extractDict_valid hrow
      exact ⟨le_of_lt this.2.1, this.2.2⟩
    · cases hrow

theorem processDataframe_pre (df : DF) (bank : Option String) :
    ∀ t ∈ processDataframe df bank, 0 ≤ t.amount.m ∧ typeOk t.type := by
  intro t ht
  unfold processDataframe at ht
  rw [List.mem_filterMap] at ht
  obtain ⟨row, _, hrow⟩ := ht
  have := extractDict_valid hrow
  exact ⟨le_of_lt this.2.1, this.2.2⟩

theorem foldl_inv {α β : Type} (f : β → α → β) (Inv : β → Prop)
    (hf : ∀ b a, Inv b → Inv (f b a)) :
    ∀ (l : List α) (b : β), Inv b → Inv (l.foldl f b)
  | [], _, hb => hb
  | a :: rest, b, hb => foldl_inv f Inv hf rest (f b a) (hf b a hb)

theorem pdfplumberScan_pre (pages : List PdfPage) :
    ∀ t ∈ (pdfplumberScan pages).2.2, 0 ≤ t.amount.m ∧ typeOk t.type := by
  unfold pdfplumberScan
  refine foldl_inv _
    (fun acc : String × Option String × List Txn =>
      ∀ t ∈ acc.2.2, 0 ≤ t.amount.m ∧ typeOk t.type)
    ?_ pages ("", none, []) (fun t ht => absurd ht (List.not_mem_nil t))
  intro acc page hacc
  cases hpage : page.text with
  | none => simpa [hpage] using hacc
  | some txt =>
    by_cases he : txt = ""
    · simp only [hpage, he, if_pos]
      exact hacc
    · simp only [hpage, if_neg he]
      intro t ht
      rcases List.mem_append.mp ht with h | h
      · exact hacc t h
      · refine foldl_inv _
          (fun ts : List Txn => ∀ u ∈ ts, 0 ≤ u.amount.m ∧ typeOk u.type)
          ?_ page.tables [] (fun u hu => absurd hu (List.not_mem_nil u)) t h
        intro ts table hts
        split_ifs with hc
        · intro u hu
          rcases List.mem_append.mp hu with h' | h'
          · exact hts u h'
          · exact processTableData_pre table _ u h'
        · exact hts

theorem goodTxn_parts {t : Txn} (h : goodTxn t = true) :
    t.date.isSome = true ∧ t.amount.truthy = true := by
  simpa [goodTxn, Bool.and_eq_true] using h

theorem cleanAndCategorize_valid {l : List Txn}
    (hl : ∀ t ∈ l, 0 ≤ t.amount.m ∧ typeOk t.type) :
    ∀ t ∈ cleanAndCategorize l, txnValid t := by
  intro t ht
  obtain ⟨s, hs, hgood, rfl⟩ := mem_cleanAndCategorize ht
  obtain ⟨hamt, htyp⟩ := hl s hs
  obtain ⟨hdate, htruthy⟩ := goodTxn_parts hgood
  exact ⟨hdate, DecAmt.val_pos_of_truthy hamt htruthy, htyp⟩

theorem parsePdfWithPdfplumber_valid (pages : List PdfPage) :
    ∀ t ∈ parsePdfWithPdfplumber pages, txnValid t := by
  unfold parsePdfWithPdfplumber
  apply cleanAndCategorize_valid
  split_ifs with hc
  · exact parseTextWithRegex_pre _ _
  · exact pdfplumberScan_pre pages

theorem parsePdfWithCamelot_valid (read : Except String (List DF)) :
    ∀ t ∈ parsePdfWithCamelot read, txnValid t := by
  unfold parsePdfWithCamelot
  cases read with
  | error e => intro t ht; cases ht
  | ok tables =>
    apply cleanAndCategorize_valid
    refine (foldl_inv _
      (fun acc : Option String × List Txn =>
        ∀ t ∈ acc.2, 0 ≤ t.amount.m ∧ typeOk t.type) ?_ tables
      (none, []) (fun t ht => absurd ht (List.not_mem_nil t)))
    intro acc df hacc
    split_ifs with hc
    · intro t ht
      rcases List.mem_append.mp ht with h | h
      · exact hacc t h
      · exact processDataframe_pre df _ t h
    · exact hacc

theorem parsePdfWithOcr_valid (read : Except String (List String)) :
    ∀ t ∈ parsePdfWithOcr read, txnValid t := by
  unfold parsePdfWithOcr
  cases read with
  | error e => intro t ht; cases ht
  | ok pageTexts =>
    apply cleanAndCategorize_valid
    exact parseTextWithRegex_pre _ _

theorem parsePdfStatement_valid (pdfIn : Except String (List PdfPage))
    (camIn : Except String (List DF)) (ocrIn : Except String (List String)) :
    ∀ t ∈ (parsePdfStatement pdfIn camIn ocrIn).transactions, txnValid t := by
  unfold parsePdfStatement
  cases pdfIn with
  | error e => intro t ht; cases ht
  | ok pages =>
    dsimp only
    split_ifs
    · exact parsePdfWithPdfplumber_valid pages
    · exact parsePdfWithCamelot_valid camIn
    · exact parsePdfWithOcr_valid ocrIn

theorem parseCsvStatement_valid (read : CsvIn) :
    ∀ t ∈ (parseCsvStatement read).transactions, txnValid t := by
  cases read with
  | allEncodingsFailed => intro t ht; cases ht
  | raised m => intro t ht; cases ht
  | ok df => exact cleanAndCategorize_valid (processDataframe_pre df _)

theorem parseExcelGo_valid :
    ∀ sheets : List (String × DF),
      ∀ t ∈ (parseExcelStatement.go sheets).transactions, txnValid t
  | [] => by intro t ht; cases ht
  | (name, df) :: rest => by
    unfold parseExcelStatement.go
    dsimp only
    split_ifs
    · exact cleanAndCategorize_valid (processDataframe_pre df _)
    · exact parseExcelGo_valid rest
    · exact parseExcelGo_valid rest

theorem parseExcelStatement_valid (read : Except String (List (String × DF))) :
    ∀ t ∈ (parseExcelStatement read).transactions, txnValid t := by
  cases read with
  | error m => intro t ht; cases ht
  | ok sheets => exact parseExcelGo_valid sheets

theorem parseImageStatement_valid (read : Except String String) :
    ∀ t ∈ (parseImageStatement read).transactions, txnValid t := by
  cases read with
  | error m => intro t ht; cases ht
  | ok text => exact cleanAndCategorize_valid (parseTextWithRegex_pre _ _)

theorem geminiValidate_valid (entries : List GRaw) :
    ∀ t ∈ geminiValidate entries,
      (∃ d, ValidDate d ∧ t.date = formatISO d) ∧
        PFloat.leZero t.amount = false ∧
        (∀ a, t.amount = PFloat.fin a → 0 < a.val) ∧ typeOk t.type := by
  intro t ht
  rw [geminiValidate, List.mem_filterMap] at ht
  obtain ⟨entry, _, hsome⟩ := ht
  split at hsome
  · split at hsome
    · cases hsome
    · rename_i dateObj hdate
      split at hsome
      · cases hsome
      · split at hsome
        · cases hsome
        · split at hsome
          · rename_i hneg hty
            rw [Option.some.injEq] at hsome
            subst hsome
            refine ⟨⟨dateObj, strptime_valid hdate, rfl⟩, ?_, ?_, hty⟩
            · dsimp only
              simpa using hneg
            · intro a ha
              dsimp only at ha
              subst ha
              simp only [PFloat.leZero, decide_eq_true_eq] at hneg
              exact DecAmt.val_pos (by omega)
          · cases hsome
  · cases hsome

/-- C3 counterexample: the Gemini validation loop keeps a transaction whose
amount is `nan`: `float('nan')` succeeds and `nan <= 0` is false, so the
`amount <= 0` guard does not drop the record — the claimed strictly positive
amount fails on the Gemini path. -/
theorem c3_positive_amount_counterexample :
    geminiValidate [c3nanEntry] = [c3nanTxn] ∧ c3nanTxn.amount = PFloat.nan :=
  ⟨by decide, by decide⟩

/-- C3 amended: every transaction in a final result of the advanced parser —
over any input file kind and any collaborator data — has a present (parsed)
calendar date, a strictly positive amount and a type in {credit, debit};
every record the Gemini validation loop keeps carries a valid
`%Y-%m-%d`-formatted date and a credit/debit type, and its amount passed the
`not (amount <= 0)` float check — strictly positive whenever it is finite,
but a `nan` or `+inf` amount also passes.  Intermediate records failing the
checks are dropped and never appear. -/
theorem c3_validity_amended :
    (∀ suffix pdfIn camIn ocrIn csvIn excelIn imgIn t,
        t ∈ (parse_statement suffix pdfIn camIn ocrIn csvIn excelIn
            imgIn).transactions →
        txnValid t) ∧
    (∀ (entries : List GRaw) (t : GTxn), t ∈ geminiValidate entries →
        (∃ d, ValidDate d ∧ t.date = formatISO d) ∧
          PFloat.leZero t.amount = false ∧
          (∀ a, t.amount = PFloat.fin a → 0 < a.val) ∧ typeOk t.type) := by
  constructor
  · intro suffix pdfIn camIn ocrIn csvIn excelIn imgIn t ht
    unfold parse_statement at ht
    dsimp only at ht
    split_ifs at ht
    · exact parsePdfStatement_valid _ _ _ t ht
    · exact parseCsvStatement_valid _ t ht
    · exact parseExcelStatement_valid _ t ht
    · exact parseImageStatement_valid _ t ht
    · cases ht
  · exact geminiValidate_valid

/-- C3 witness: the amended invariants at a concrete parsed file (a PDF page
whose table yields one transaction) and a concrete finite validated Gemini
entry. -/
theorem c3_validity_amended_witness :
    txnValid c3wTxn ∧
    ((∃ d, ValidDate d ∧ c3gTxn.date = formatISO d) ∧
      PFloat.leZero c3gTxn.amount = false ∧
      (∀ a, c3gTxn.amount = PFloat.fin a → 0 < a.val) ∧ typeOk c3gTxn.type) :=
  ⟨c3_validity_amended.1 ".pdf" (.ok wPages) (.error "c") (.error "o")
      (.raised "r") (.error "e") (.error "i") c3wTxn (by decide),
   c3_validity_amended.2 [c3gEntry] c3gTxn (by decide)⟩

end FinAdvisor
